import Mathlib

/-!
# GxEPD2_EPD: base driver for SPI e-paper panels

A shallow embedding of `libraries/GxEPD2/src/GxEPD2_EPD.cpp`.

* The driver object is a record of its fields.  `int8_t` pin numbers are `Int`,
  `uint32_t _busy_timeout` is a `Nat`, bytes are `Fin 256`.
* Every call into the Arduino core or the SPI object (`digitalWrite`, `pinMode`,
  `digitalRead`, `delay`, `micros`, `beginTransaction`, `transfer`, ...) is recorded
  as an `Event`; an operation yields the list of events it issues, in order.
* Values the hardware supplies (`digitalRead` results, `micros()` readings) come from
  an `Env`: the k-th call of each kind receives the k-th value of the stream.
* A loop is run with a fuel bound on its number of iterations.  A `Run` keeps the
  events issued so far together with `some` result when the body returned and `none`
  when the fuel ran out first.
* `unsigned long` is 32 bits wide (`micros() - start` is computed modulo `2^32`), and
  the model is the build without `RASPBERRY_PI`, `ESP8266`, `ESP32`,
  `ARDUINO_ARCH_NRF52`, `ARDUINO_ARCH_RP2040` and `DISABLE_DIAGNOSTIC_OUTPUT`.
-/

namespace GxEPD2

/-- Logic level of a digital pin (`LOW`, `HIGH`). -/
inductive Level
  | LOW
  | HIGH
  deriving DecidableEq, Repr

/-- Pin direction passed to `pinMode`. -/
inductive PinDir
  | INPUT
  | OUTPUT
  | INPUT_PULLUP
  deriving DecidableEq, Repr

/-- A `uint8_t`. -/
abbrev Byte := Fin 256

/-- One call into the Arduino core, the serial port or the SPI object. -/
inductive Event
  | beginTransaction
  | endTransaction
  | transfer (b : Byte)
  | digitalWrite (pin : Int) (v : Level)
  | pinMode (pin : Int) (m : PinDir)
  | digitalRead (pin : Int) (v : Int)
  | delay (ms : Nat)
  | micros (t : Nat)
  | busyCallback
  | serialBegin (bitrate : Nat)
  | serialPrint (text : String)
  | serialPrintln (value : Nat)
  | spiBegin
  | spiEnd
  deriving DecidableEq, Repr

/-- The fields of a `GxEPD2_EPD` object.  `_busy_callback` records whether the callback
pointer is non-null.  The SPI object pointer and its settings are not modelled: the
SPI calls appear as events. -/
structure GxEPD2_EPD where
  WIDTH : Nat
  HEIGHT : Nat
  panel : Nat
  hasColor : Bool
  hasPartialUpdate : Bool
  hasFastPartialUpdate : Bool
  _cs : Int
  _dc : Int
  _rst : Int
  _busy : Int
  _busy_level : Int
  _busy_timeout : Nat
  _diag_enabled : Bool
  _initial_write : Bool
  _initial_refresh : Bool
  _pulldown_rst_mode : Bool
  _power_is_on : Bool
  _using_partial_mode : Bool
  _hibernating : Bool
  _init_display_done : Bool
  _timeout_expired : Bool
  _busy_callback : Bool
  deriving DecidableEq, Repr

/-- Events issued by a (possibly unfinished) execution, and its result when it returned. -/
structure Run (α : Type) where
  trace : List Event
  result : Option α
  deriving DecidableEq, Repr

namespace Run

/-- Sequential composition: the continuation runs only when the first part returned. -/
def andThen {α β : Type} (r : Run α) (k : α → Run β) : Run β :=
  match r.result with
  | none => ⟨r.trace, none⟩
  | some a => ⟨r.trace ++ (k a).trace, (k a).result⟩

instance : Monad Run where
  pure a := ⟨[], some a⟩
  bind := andThen

end Run

/-- Issue the given events and return. -/
def emit (es : List Event) : Run Unit := ⟨es, some ()⟩

/-- The 32-bit wrap of `unsigned long` arithmetic. -/
def U32 : Nat := 4294967296

/-- A counting loop `for (uintN_t i = 0; i < bound; i++) { body(*ptr++) }` started at
counter `i` and buffer offset `p`.  `modulus` is `2^N` for the counter type, the
comparison is done after integer promotion, and `body p` are the events one iteration
issues for buffer offset `p`. -/
def forLoop (modulus : Nat) (bound : Int) (body : Nat → List Event) : Nat → Nat → Nat → Run Unit
  | 0, _, _ => ⟨[], none⟩
  | fuel + 1, i, p =>
    if (i : Int) < bound then
      let r := forLoop modulus bound body fuel ((i + 1) % modulus) (p + 1)
      ⟨body p ++ r.trace, r.result⟩
    else ⟨[], some ()⟩

/-- The loop `while (fill_with_zeroes > 0) { body; fill_with_zeroes--; }`. -/
def fillLoop (body : List Event) : Nat → Int → Run Unit
  | 0, _ => ⟨[], none⟩
  | fuel + 1, fill_with_zeroes =>
    if fill_with_zeroes > 0 then
      let r := fillLoop body fuel (fill_with_zeroes - 1)
      ⟨body ++ r.trace, r.result⟩
    else ⟨[], some ()⟩

namespace GxEPD2_EPD

/-- Method `GxEPD2_EPD::_writeCommand(uint8_t c)`. -/
def _writeCommand (s : GxEPD2_EPD) (c : Byte) : Run Unit := do
  emit [.beginTransaction]
  if s._dc ≥ 0 then emit [.digitalWrite s._dc .LOW]
  if s._cs ≥ 0 then emit [.digitalWrite s._cs .LOW]
  emit [.transfer c]
  if s._cs ≥ 0 then emit [.digitalWrite s._cs .HIGH]
  if s._dc ≥ 0 then emit [.digitalWrite s._dc .HIGH]
  emit [.endTransaction]

/-- Method `GxEPD2_EPD::_writeData(uint8_t d)`. -/
def _writeData (s : GxEPD2_EPD) (d : Byte) : Run Unit := do
  emit [.beginTransaction]
  if s._cs ≥ 0 then emit [.digitalWrite s._cs .LOW]
  emit [.transfer d]
  if s._cs ≥ 0 then emit [.digitalWrite s._cs .HIGH]
  emit [.endTransaction]

/-- Method `GxEPD2_EPD::_writeData(const uint8_t* data, uint16_t n)`; `data p` is `data[p]`. -/
def _writeData_n (s : GxEPD2_EPD) (data : Nat → Byte) (n : Nat) (fuel : Nat) : Run Unit := do
  emit [.beginTransaction]
  if s._cs ≥ 0 then emit [.digitalWrite s._cs .LOW]
  forLoop 65536 n (fun p => [.transfer (data p)]) fuel 0 0
  if s._cs ≥ 0 then emit [.digitalWrite s._cs .HIGH]
  emit [.endTransaction]

/-- Method `GxEPD2_EPD::_writeDataPGM(const uint8_t* data, uint16_t n, int16_t fill_with_zeroes)`. -/
def _writeDataPGM (s : GxEPD2_EPD) (data : Nat → Byte) (n : Nat) (fill_with_zeroes : Int)
    (fuel : Nat) : Run Unit := do
  emit [.beginTransaction]
  if s._cs ≥ 0 then emit [.digitalWrite s._cs .LOW]
  forLoop 65536 n (fun p => [.transfer (data p)]) fuel 0 0
  fillLoop [.transfer 0] fuel fill_with_zeroes
  if s._cs ≥ 0 then emit [.digitalWrite s._cs .HIGH]
  emit [.endTransaction]

/-- Events of `if (_cs >= 0) digitalWrite(_cs, v);`. -/
def csWrite (s : GxEPD2_EPD) (v : Level) : List Event :=
  if s._cs ≥ 0 then [.digitalWrite s._cs v] else []

/-- Events of `if (_dc >= 0) digitalWrite(_dc, v);`. -/
def dcWrite (s : GxEPD2_EPD) (v : Level) : List Event :=
  if s._dc ≥ 0 then [.digitalWrite s._dc v] else []

/-- Method `GxEPD2_EPD::_writeDataPGM_sCS(const uint8_t* data, uint16_t n, int16_t fill_with_zeroes)`.
The loop counter is a `uint8_t`. -/
def _writeDataPGM_sCS (s : GxEPD2_EPD) (data : Nat → Byte) (n : Nat) (fill_with_zeroes : Int)
    (fuel : Nat) : Run Unit := do
  emit [.beginTransaction]
  forLoop 256 n (fun p => csWrite s .LOW ++ [.transfer (data p)] ++ csWrite s .HIGH) fuel 0 0
  fillLoop (csWrite s .LOW ++ [.transfer 0] ++ csWrite s .HIGH) fuel fill_with_zeroes
  emit [.endTransaction]

/-- Method `GxEPD2_EPD::_writeCommandData(const uint8_t* pCommandData, uint8_t datalen)`.
The loop bound `datalen - 1` is an `int` after promotion. -/
def _writeCommandData (s : GxEPD2_EPD) (pCommandData : Nat → Byte) (datalen : Nat)
    (fuel : Nat) : Run Unit := do
  emit [.beginTransaction]
  if s._dc ≥ 0 then emit [.digitalWrite s._dc .LOW]
  if s._cs ≥ 0 then emit [.digitalWrite s._cs .LOW]
  emit [.transfer (pCommandData 0)]
  if s._dc ≥ 0 then emit [.digitalWrite s._dc .HIGH]
  forLoop 256 ((datalen : Int) - 1) (fun p => [.transfer (pCommandData p)]) fuel 0 1
  if s._cs ≥ 0 then emit [.digitalWrite s._cs .HIGH]
  emit [.endTransaction]

/-- Method `GxEPD2_EPD::_writeCommandDataPGM(const uint8_t* pCommandData, uint8_t datalen)`;
`pgm_read_byte` reads the byte at the given offset of the program-memory buffer. -/
def _writeCommandDataPGM (s : GxEPD2_EPD) (pCommandData : Nat → Byte) (datalen : Nat)
    (fuel : Nat) : Run Unit := do
  emit [.beginTransaction]
  if s._dc ≥ 0 then emit [.digitalWrite s._dc .LOW]
  if s._cs ≥ 0 then emit [.digitalWrite s._cs .LOW]
  emit [.transfer (pCommandData 0)]
  if s._dc ≥ 0 then emit [.digitalWrite s._dc .HIGH]
  forLoop 256 ((datalen : Int) - 1) (fun p => [.transfer (pCommandData p)]) fuel 0 1
  if s._cs ≥ 0 then emit [.digitalWrite s._cs .HIGH]
  emit [.endTransaction]

/-- Method `GxEPD2_EPD::_startTransfer()`. -/
def _startTransfer (s : GxEPD2_EPD) : Run Unit := do
  emit [.beginTransaction]
  if s._cs ≥ 0 then emit [.digitalWrite s._cs .LOW]

/-- Method `GxEPD2_EPD::_transfer(uint8_t value)`. -/
def _transfer (_s : GxEPD2_EPD) (value : Byte) : Run Unit :=
  emit [.transfer value]

/-- Method `GxEPD2_EPD::_endTransfer()`. -/
def _endTransfer (s : GxEPD2_EPD) : Run Unit := do
  if s._cs ≥ 0 then emit [.digitalWrite s._cs .HIGH]
  emit [.endTransaction]

/-- Constructor `GxEPD2_EPD::GxEPD2_EPD(cs, dc, rst, busy, busy_level, busy_timeout, w, h, p, c, pu, fpu)`.
The constructor does not assign `_pulldown_rst_mode`; `pulldown_rst_mode0` stands for
whatever value the member holds at that point. -/
def construct (cs dc rst busy busy_level : Int) (busy_timeout : Nat) (w h p : Nat)
    (c pu fpu : Bool) (pulldown_rst_mode0 : Bool) : GxEPD2_EPD :=
  { WIDTH := w, HEIGHT := h, panel := p, hasColor := c, hasPartialUpdate := pu,
    hasFastPartialUpdate := fpu,
    _cs := cs, _dc := dc, _rst := rst, _busy := busy, _busy_level := busy_level,
    _busy_timeout := busy_timeout, _diag_enabled := false,
    _initial_write := true,
    _initial_refresh := true,
    _pulldown_rst_mode := pulldown_rst_mode0,
    _power_is_on := false,
    _using_partial_mode := false,
    _hibernating := false,
    _init_display_done := false,
    _timeout_expired := false,
    _busy_callback := false }

/-- Method `GxEPD2_EPD::_reset()`: the new state and the events issued. -/
def _reset (s : GxEPD2_EPD) : GxEPD2_EPD × List Event :=
  if s._rst ≥ 0 then
    let t : List Event :=
      if s._pulldown_rst_mode then
        [.digitalWrite s._rst .LOW, .pinMode s._rst .OUTPUT, .delay 20,
         .pinMode s._rst .INPUT_PULLUP, .delay 200]
      else
        [.digitalWrite s._rst .HIGH, .pinMode s._rst .OUTPUT, .delay 20,
         .digitalWrite s._rst .LOW, .delay 20,
         .digitalWrite s._rst .HIGH, .delay 200]
    ({ s with _hibernating := false }, t)
  else (s, [])

/-- Method `GxEPD2_EPD::init(uint32_t serial_diag_bitrate, bool initial, bool pulldown_rst_mode)`. -/
def init (s : GxEPD2_EPD) (serial_diag_bitrate : Nat) (initial pulldown_rst_mode : Bool) :
    GxEPD2_EPD × List Event :=
  let s1 := { s with
    _initial_write := initial,
    _initial_refresh := initial,
    _pulldown_rst_mode := pulldown_rst_mode,
    _power_is_on := false,
    _using_partial_mode := false,
    _hibernating := false,
    _init_display_done := false,
    _timeout_expired := false }
  let s2 := if serial_diag_bitrate > 0 then { s1 with _diag_enabled := true } else s1
  let t2 : List Event := if serial_diag_bitrate > 0 then [.serialBegin serial_diag_bitrate] else []
  let t3 : List Event :=
    if s2._cs ≥ 0 then [.digitalWrite s2._cs .HIGH, .pinMode s2._cs .OUTPUT] else []
  let t4 : List Event :=
    if s2._dc ≥ 0 then [.digitalWrite s2._dc .HIGH, .pinMode s2._dc .OUTPUT] else []
  let r := _reset s2
  let t6 : List Event := if r.1._busy ≥ 0 then [.pinMode r.1._busy .INPUT] else []
  (r.1, t2 ++ t3 ++ t4 ++ r.2 ++ t6 ++ [.spiBegin])

/-- Method `GxEPD2_EPD::init(uint32_t serial_diag_bitrate)`. -/
def init1 (s : GxEPD2_EPD) (serial_diag_bitrate : Nat) : GxEPD2_EPD × List Event :=
  init s serial_diag_bitrate true false

/-- Method `GxEPD2_EPD::end()`. -/
def end_ (s : GxEPD2_EPD) : List Event :=
  [.spiEnd]
    ++ (if s._cs ≥ 0 then [.pinMode s._cs .INPUT] else [])
    ++ (if s._dc ≥ 0 then [.pinMode s._dc .INPUT] else [])
    ++ (if s._rst ≥ 0 then [.pinMode s._rst .INPUT] else [])

end GxEPD2_EPD

/-- What the hardware supplies during one call: `pinRead k` is the value returned by the
k-th `digitalRead` (counted from 0) and `clock k` the microsecond counter at the k-th
call of `micros()`. -/
structure Env where
  pinRead : Nat → Int
  clock : Nat → Nat

/-- The value `micros()` returns at its k-th call: the counter as an `unsigned long`. -/
def Env.micros (env : Env) (k : Nat) : Nat := env.clock k % U32

/-- The unsigned difference `now - start`. -/
def elapsedSince (start now : Nat) : Nat := (now + U32 - start) % U32

namespace GxEPD2_EPD

/-- The `while (1)` loop of `GxEPD2_EPD::_waitWhileBusy`, entered with `nr` calls of
`digitalRead` and `nt` calls of `micros()` behind it.  It returns the driver state and
the number of `micros()` calls made. -/
def busyLoop (s : GxEPD2_EPD) (env : Env) (start : Nat) :
    Nat → Nat → Nat → Run (GxEPD2_EPD × Nat)
  | 0, _, _ => ⟨[], none⟩
  | fuel + 1, nr, nt =>
    let r1 := env.pinRead nr
    if r1 ≠ s._busy_level then
      ⟨[.digitalRead s._busy r1], some (s, nt)⟩
    else
      let wait : Event := if s._busy_callback then .busyCallback else .delay 1
      let r2 := env.pinRead (nr + 1)
      if r2 ≠ s._busy_level then
        ⟨[.digitalRead s._busy r1, wait, .digitalRead s._busy r2], some (s, nt)⟩
      else
        let now := env.micros nt
        if elapsedSince start now > s._busy_timeout then
          ⟨[.digitalRead s._busy r1, wait, .digitalRead s._busy r2, .micros now],
            some ({ s with _timeout_expired := true }, nt + 1)⟩
        else
          let r := busyLoop s env start fuel (nr + 2) (nt + 1)
          ⟨[.digitalRead s._busy r1, wait, .digitalRead s._busy r2, .micros now] ++ r.trace,
            r.result⟩

/-- Method `GxEPD2_EPD::_waitWhileBusy(const char* comment, uint16_t busy_time)`; a null
`comment` is `none`. -/
def _waitWhileBusy (s : GxEPD2_EPD) (env : Env) (comment : Option String)
    (busy_time : Nat) (fuel : Nat) : Run GxEPD2_EPD :=
  if s._busy ≥ 0 then do
    emit [.delay 1]
    let start := env.micros 0
    emit [.micros start]
    let (s1, nt) ← busyLoop s env start fuel 0 1
    match comment with
    | some text =>
      if s1._diag_enabled then
        let elapsed := elapsedSince start (env.micros nt)
        emit [.micros (env.micros nt), .serialPrint text, .serialPrint " : ",
              .serialPrintln elapsed]
    | none => pure ()
    pure s1
  else do
    emit [.delay busy_time]
    pure s

end GxEPD2_EPD

/-! ## Observations on event sequences -/

/-- The level of `pin` after the events, given its level `v` before them. -/
def levelAfter (pin : Int) : Level → List Event → Level
  | v, [] => v
  | v, .digitalWrite p w :: es => levelAfter pin (if p = pin then w else v) es
  | v, _ :: es => levelAfter pin v es

/-- The bytes handed to `transfer`, each with the levels of the pins `dc` and `cs` at that
moment; `d` and `c` are the levels before the events. -/
def transfersAt (dc cs : Int) : Level → Level → List Event → List (Byte × Level × Level)
  | _, _, [] => []
  | d, c, .transfer b :: es => (b, d, c) :: transfersAt dc cs d c es
  | d, c, .digitalWrite p v :: es =>
    transfersAt dc cs (if p = dc then v else d) (if p = cs then v else c) es
  | d, c, _ :: es => transfersAt dc cs d c es

/-- The bytes handed to `transfer`, in order. -/
def transferred : List Event → List Byte
  | [] => []
  | .transfer b :: es => b :: transferred es
  | _ :: es => transferred es

/-- The pin an event addresses, for `digitalWrite`, `pinMode` and `digitalRead`. -/
def Event.pin? : Event → Option Int
  | .digitalWrite p _ => some p
  | .pinMode p _ => some p
  | .digitalRead p _ => some p
  | _ => none

/-! ## Sample objects, specification predicates and the operation table -/

/-- A driver object used to instantiate the theorems: CS 5, DC 6, RST 7, BUSY 8,
busy level HIGH, timeout 3000 microseconds. -/
def sample : GxEPD2_EPD := GxEPD2_EPD.construct 5 6 7 8 1 3000 200 200 0 false true true false

/-- A buffer whose byte at offset `i` is `i mod 256`. -/
def sampleData : Nat → Byte := fun i => Fin.ofNat i

/-- A driver object without a reset line, and with the hibernation flag set. -/
def sampleNoRst : GxEPD2_EPD := { sample with _rst := -1, _hibernating := true }

/-- Iteration `k` (counted from 0) of the polling loop entered after `nr` pin reads and
`nt` clock readings is reached and leaves through the timeout branch: in every earlier
iteration both pin reads equalled `_busy_level` and the elapsed time did not exceed
`_busy_timeout`, and in iteration `k` both reads equal `_busy_level` and the elapsed time
exceeds `_busy_timeout`. -/
def timeoutBranchFrom (s : GxEPD2_EPD) (env : Env) (start nr nt k : Nat) : Prop :=
  (∀ j, j < k →
      env.pinRead (nr + 2 * j) = s._busy_level ∧ env.pinRead (nr + 2 * j + 1) = s._busy_level
        ∧ ¬ s._busy_timeout < elapsedSince start (env.micros (nt + j)))
    ∧ env.pinRead (nr + 2 * k) = s._busy_level ∧ env.pinRead (nr + 2 * k + 1) = s._busy_level
    ∧ s._busy_timeout < elapsedSince start (env.micros (nt + k))

/-- The call of `_waitWhileBusy` leaves its loop through the timeout branch: in some
iteration that is reached, both `digitalRead(_busy)` results equal `_busy_level` and
`micros() - start` (modulo 2^32) is strictly greater than `_busy_timeout`.  Reading 0 of
the clock is `start`; iteration `j` uses pin reads `2j`, `2j+1` and clock reading `j+1`. -/
def LeftByTimeout (s : GxEPD2_EPD) (env : Env) : Prop :=
  ∃ k, timeoutBranchFrom s env (env.micros 0) 0 1 k

instance (s : GxEPD2_EPD) (env : Env) (start nr nt k : Nat) :
    Decidable (timeoutBranchFrom s env start nr nt k) := by
  unfold timeoutBranchFrom
  infer_instance

/-- The busy line reads HIGH forever and the clock reads 1000 microseconds more at every
reading. -/
def steadyBusy : Env := ⟨fun _ => 1, fun k => 1000 * k⟩

/-- A driver object without a busy line. -/
def sampleNoBusy : GxEPD2_EPD := { sample with _busy := -1, _timeout_expired := true }

/-- The driver object `sample` with the largest `uint32_t` timeout. -/
def sampleMaxTimeout : GxEPD2_EPD := { sample with _busy_timeout := 4294967295 }

/-- The busy line reads HIGH three times and LOW from then on; the clock reads 1000
microseconds more at every reading. -/
def releasedBusy : Env := ⟨fun k => if k < 3 then 1 else 0, fun k => 1000 * k⟩

/-- A driver object as the constructor leaves it when the member `_pulldown_rst_mode`,
which the constructor does not assign, holds `true`. -/
def samplePulldown : GxEPD2_EPD :=
  GxEPD2_EPD.construct 5 6 7 8 1 3000 200 200 0 false true true true

/-- The operations of the driver, with their arguments. -/
inductive Op
  | init (serial_diag_bitrate : Nat) (initial pulldown_rst_mode : Bool)
  | init1 (serial_diag_bitrate : Nat)
  | end_
  | _reset
  | _waitWhileBusy (env : Env) (comment : Option String) (busy_time : Nat)
  | _writeCommand (c : Byte)
  | _writeData (d : Byte)
  | _writeData_n (data : Nat → Byte) (n : Nat)
  | _writeDataPGM (data : Nat → Byte) (n : Nat) (fill_with_zeroes : Int)
  | _writeDataPGM_sCS (data : Nat → Byte) (n : Nat) (fill_with_zeroes : Int)
  | _writeCommandData (pCommandData : Nat → Byte) (datalen : Nat)
  | _writeCommandDataPGM (pCommandData : Nat → Byte) (datalen : Nat)
  | _startTransfer
  | _transfer (value : Byte)
  | _endTransfer

/-- The events an operation issues on the driver object `s` when every loop is given
`fuel` iterations: all its events when it returns, those issued so far otherwise. -/
def Op.events (s : GxEPD2_EPD) (fuel : Nat) : Op → List Event
  | .init b i pd => (GxEPD2_EPD.init s b i pd).2
  | .init1 b => (GxEPD2_EPD.init1 s b).2
  | .end_ => GxEPD2_EPD.end_ s
  | ._reset => (GxEPD2_EPD._reset s).2
  | ._waitWhileBusy env comment busy_time =>
    (GxEPD2_EPD._waitWhileBusy s env comment busy_time fuel).trace
  | ._writeCommand c => (GxEPD2_EPD._writeCommand s c).trace
  | ._writeData d => (GxEPD2_EPD._writeData s d).trace
  | ._writeData_n data n => (GxEPD2_EPD._writeData_n s data n fuel).trace
  | ._writeDataPGM data n f => (GxEPD2_EPD._writeDataPGM s data n f fuel).trace
  | ._writeDataPGM_sCS data n f => (GxEPD2_EPD._writeDataPGM_sCS s data n f fuel).trace
  | ._writeCommandData p datalen => (GxEPD2_EPD._writeCommandData s p datalen fuel).trace
  | ._writeCommandDataPGM p datalen => (GxEPD2_EPD._writeCommandDataPGM s p datalen fuel).trace
  | ._startTransfer => (GxEPD2_EPD._startTransfer s).trace
  | ._transfer value => (GxEPD2_EPD._transfer s value).trace
  | ._endTransfer => (GxEPD2_EPD._endTransfer s).trace

/-- An event is pin-safe for the driver object `s`: if it is a `digitalWrite`, `pinMode`
or `digitalRead`, its pin number is not negative and is the number of one of the four
configured pins. -/
def pinSafe (s : GxEPD2_EPD) (e : Event) : Prop :=
  ∀ pin, e.pin? = some pin →
    0 ≤ pin ∧ (pin = s._cs ∨ pin = s._dc ∨ pin = s._rst ∨ pin = s._busy)

/-- Every event of the run satisfies `P`. -/
def TraceOK {α : Type} (P : Event → Prop) (r : Run α) : Prop := ∀ e ∈ r.trace, P e

/-- The caller's loop `for (i = 0; i < n; i++) _transfer(data[i])`, over the list of the
bytes `data[0] .. data[n-1]`. -/
def transferEach (s : GxEPD2_EPD) : List Byte → Run Unit
  | [] => pure ()
  | b :: bs => do
    GxEPD2_EPD._transfer s b
    transferEach s bs

/-- The streaming sequence `_startTransfer()`, `_transfer(b)` for each byte, `_endTransfer()`. -/
def streamed (s : GxEPD2_EPD) (bytes : List Byte) : Run Unit := do
  GxEPD2_EPD._startTransfer s
  transferEach s bytes
  GxEPD2_EPD._endTransfer s

/-- An event sequence is well framed for the driver object `s`: it holds exactly one
`beginTransaction`, which is its first event, and exactly one `endTransaction`, which is
its last event; and when there is a CS pin, CS is HIGH after the events if it was HIGH
(its idle level, set by `init`) before them, and HIGH whatever its level before them if
the events write CS at all. -/
def WellFramed (s : GxEPD2_EPD) (tr : List Event) : Prop :=
  tr.count Event.beginTransaction = 1
    ∧ tr.count Event.endTransaction = 1
    ∧ tr.head? = some Event.beginTransaction
    ∧ tr.getLast? = some Event.endTransaction
    ∧ (0 ≤ s._cs → levelAfter s._cs .HIGH tr = .HIGH)
    ∧ (0 ≤ s._cs → (∃ w : Level, Event.digitalWrite s._cs w ∈ tr) →
        ∀ v : Level, levelAfter s._cs v tr = .HIGH)

/-- The events between `beginTransaction` and `endTransaction` hold neither of the two. -/
def NoFraming (mid : List Event) : Prop :=
  Event.beginTransaction ∉ mid ∧ Event.endTransaction ∉ mid

/-- The run returned and its events are well framed. -/
def FramedRun (s : GxEPD2_EPD) (r : Run Unit) : Prop :=
  r.result = some () ∧ WellFramed s r.trace

/-! ## Loop lemmas -/

theorem forLoop_exit (modulus : Nat) (bound : Int) (body : Nat → List Event) (fuel i p : Nat)
    (h : bound ≤ (i : Int)) :
    forLoop modulus bound body (fuel + 1) i p = ⟨[], some ()⟩ := by
  simp [forLoop, not_lt.mpr h]

theorem forLoop_run (modulus n : Nat) (body : Nat → List Event) (hn : n < modulus) :
    ∀ fuel i p : Nat, i ≤ n → n - i < fuel →
      forLoop modulus (n : Int) body fuel i p
        = ⟨(List.range (n - i)).flatMap (fun j => body (p + j)), some ()⟩ := by
  intro fuel
  induction fuel with
  | zero => intro i p _ h; omega
  | succ fuel ih =>
    intro i p hi hf
    by_cases hlt : i < n
    · have hmod : (i + 1) % modulus = i + 1 := Nat.mod_eq_of_lt (by omega)
      have hcast : (i : Int) < (n : Int) := by exact_mod_cast hlt
      have hk : n - i = (n - (i + 1)) + 1 := by omega
      rw [forLoop, if_pos hcast, hmod, ih (i + 1) (p + 1) (by omega) (by omega), hk,
        List.range_succ_eq_map]
      simp [List.flatMap_cons, List.flatMap_map, Function.comp_def, Nat.succ_eq_add_one,
        Nat.add_assoc, Nat.add_comm 1]
    · have hin : n - i = 0 := by omega
      have hcast : ¬ (i : Int) < (n : Int) := by exact_mod_cast hlt
      rw [forLoop, if_neg hcast, hin]
      simp

theorem fillLoop_run (body : List Event) :
    ∀ (fuel : Nat) (f : Int), f.toNat < fuel →
      fillLoop body fuel f = ⟨(List.range f.toNat).flatMap (fun _ => body), some ()⟩ := by
  intro fuel
  induction fuel with
  | zero => intro f h; omega
  | succ fuel ih =>
    intro f hf
    by_cases hpos : f > 0
    · have hk : f.toNat = (f - 1).toNat + 1 := by omega
      rw [fillLoop, if_pos hpos, ih (f - 1) (by omega), hk, List.range_succ_eq_map]
      simp [List.flatMap_cons, List.flatMap_map, Function.comp_def]
    · have h0 : f.toNat = 0 := by omega
      rw [fillLoop, if_neg hpos, h0]
      simp

/-- Unfolding of sequential composition. -/
theorem Run.bind_eq {α β : Type} (r : Run α) (k : α → Run β) :
    (r >>= k) = match r.result with
      | none => ⟨r.trace, none⟩
      | some a => ⟨r.trace ++ (k a).trace, (k a).result⟩ := rfl

theorem Run.pure_eq {α : Type} (a : α) : (pure a : Run α) = ⟨[], some a⟩ := rfl

/-! ## Command and data framing -/

/-- C3: for every byte `c` and every pin configuration with `_dc >= 0` and `_cs >= 0`,
`_writeCommand(c)` returns after issuing exactly beginTransaction, DC low, CS low,
transfer(c), CS high, DC high, endTransaction; hence exactly one byte is transferred, it is
transferred while DC and CS are both low (whatever their levels before the call), both
pins are high after the call, and the transaction is closed by the last event. -/
theorem writeCommand_framing (s : GxEPD2_EPD) (c : Byte) (hdc : 0 ≤ s._dc) (hcs : 0 ≤ s._cs) :
    GxEPD2_EPD._writeCommand s c
        = ⟨[.beginTransaction, .digitalWrite s._dc .LOW, .digitalWrite s._cs .LOW,
            .transfer c, .digitalWrite s._cs .HIGH, .digitalWrite s._dc .HIGH,
            .endTransaction], some ()⟩
      ∧ transferred (GxEPD2_EPD._writeCommand s c).trace = [c]
      ∧ (∀ d0 c0 : Level,
          transfersAt s._dc s._cs d0 c0 (GxEPD2_EPD._writeCommand s c).trace
            = [(c, Level.LOW, Level.LOW)])
      ∧ (∀ v : Level, levelAfter s._dc v (GxEPD2_EPD._writeCommand s c).trace = Level.HIGH)
      ∧ (∀ v : Level, levelAfter s._cs v (GxEPD2_EPD._writeCommand s c).trace = Level.HIGH)
      ∧ (GxEPD2_EPD._writeCommand s c).trace.getLast? = some Event.endTransaction
      ∧ (GxEPD2_EPD._writeCommand s c).trace.count Event.beginTransaction = 1
      ∧ (GxEPD2_EPD._writeCommand s c).trace.count Event.endTransaction = 1 := by
  have h : GxEPD2_EPD._writeCommand s c
        = ⟨[.beginTransaction, .digitalWrite s._dc .LOW, .digitalWrite s._cs .LOW,
            .transfer c, .digitalWrite s._cs .HIGH, .digitalWrite s._dc .HIGH,
            .endTransaction], some ()⟩ := by
    simp [GxEPD2_EPD._writeCommand, Run.bind_eq, Run.pure_eq, emit, hdc, hcs]
  rw [h]
  refine ⟨rfl, rfl, ?_, ?_, ?_, rfl, ?_, ?_⟩
  · intro d0 c0
    by_cases hp : s._dc = s._cs <;> simp [transfersAt, hp]
  · intro v
    by_cases hp : s._cs = s._dc <;> simp [levelAfter, hp]
  · intro v
    by_cases hp : s._dc = s._cs <;> simp [levelAfter, hp]
  · simp [List.count_cons]
  · simp [List.count_cons]

theorem writeCommand_framing_witness :
    (0 : Int) ≤ sample._dc ∧ (0 : Int) ≤ sample._cs ∧
    GxEPD2_EPD._writeCommand sample 0x24
      = ⟨[.beginTransaction, .digitalWrite 6 .LOW, .digitalWrite 5 .LOW,
          .transfer 0x24, .digitalWrite 5 .HIGH, .digitalWrite 6 .HIGH,
          .endTransaction], some ()⟩ :=
  ⟨by decide, by decide, (writeCommand_framing sample 0x24 (by decide) (by decide)).1⟩

theorem flatMap_single {α β : Type} (f : α → β) (l : List α) :
    l.flatMap (fun j => [f j]) = l.map f := by
  induction l with
  | nil => rfl
  | cons a l ih => simp [List.flatMap_cons, ih]

/-- The event sequence of the buffer overload of `_writeData` once the loop has run. -/
theorem writeData_n_run (s : GxEPD2_EPD) (data : Nat → Byte) (n fuel : Nat)
    (hn : n < 65536) (hf : n < fuel) :
    GxEPD2_EPD._writeData_n s data n fuel
      = ⟨[Event.beginTransaction] ++ GxEPD2_EPD.csWrite s .LOW
          ++ (List.range n).map (fun i => Event.transfer (data i))
          ++ GxEPD2_EPD.csWrite s .HIGH ++ [Event.endTransaction], some ()⟩ := by
  have hloop := forLoop_run 65536 n (fun p => [Event.transfer (data p)]) hn fuel 0 0
    (Nat.zero_le n) (by omega)
  simp only [Nat.sub_zero, Nat.zero_add, flatMap_single] at hloop
  unfold GxEPD2_EPD._writeData_n
  rw [hloop]
  by_cases hcs : s._cs ≥ 0 <;>
    simp [Run.bind_eq, Run.pure_eq, emit, GxEPD2_EPD.csWrite, hcs]

theorem transferred_map_transfer (f : Nat → Byte) (l : List Nat) (tail : List Event) :
    transferred (l.map (fun i => Event.transfer (f i)) ++ tail)
      = l.map f ++ transferred tail := by
  induction l with
  | nil => rfl
  | cons a l ih => simp [transferred, ih]

theorem transferred_csWrite (s : GxEPD2_EPD) (v : Level) (tail : List Event) :
    transferred (GxEPD2_EPD.csWrite s v ++ tail) = transferred tail := by
  unfold GxEPD2_EPD.csWrite
  split <;> simp [transferred]

/-- C4: for every buffer and every `n` in 0..65535, `_writeData(data, n)` returns after
issuing beginTransaction, CS low, transfer(data[0]) ... transfer(data[n-1]), CS high,
endTransaction (the CS writes only when `_cs >= 0`): the bytes transferred are exactly
data[0..n-1] in order, inside one transaction and one CS bracket; every
`digitalWrite` of the call addresses `_cs`, so the DC pin (a pin other than CS) is never
written; and for `n = 1` the events are those of the single-byte overload
`_writeData(data[0])`. -/
theorem writeData_n_framing (s : GxEPD2_EPD) (data : Nat → Byte) (n fuel : Nat)
    (hn : n < 65536) (hf : n < fuel) :
    GxEPD2_EPD._writeData_n s data n fuel
        = ⟨[Event.beginTransaction] ++ GxEPD2_EPD.csWrite s .LOW
            ++ (List.range n).map (fun i => Event.transfer (data i))
            ++ GxEPD2_EPD.csWrite s .HIGH ++ [Event.endTransaction], some ()⟩
      ∧ transferred (GxEPD2_EPD._writeData_n s data n fuel).trace = (List.range n).map data
      ∧ (GxEPD2_EPD._writeData_n s data n fuel).trace.count Event.beginTransaction = 1
      ∧ (GxEPD2_EPD._writeData_n s data n fuel).trace.count Event.endTransaction = 1
      ∧ (∀ (p : Int) (v : Level),
          Event.digitalWrite p v ∈ (GxEPD2_EPD._writeData_n s data n fuel).trace →
            p = s._cs ∧ 0 ≤ s._cs)
      ∧ (s._dc ≠ s._cs → ∀ v : Level,
          Event.digitalWrite s._dc v ∉ (GxEPD2_EPD._writeData_n s data n fuel).trace)
      ∧ (n = 1 → GxEPD2_EPD._writeData_n s data n fuel = GxEPD2_EPD._writeData s (data 0)) := by
  have h := writeData_n_run s data n fuel hn hf
  have hw : ∀ (p : Int) (v : Level),
      Event.digitalWrite p v ∈ (GxEPD2_EPD._writeData_n s data n fuel).trace →
        p = s._cs ∧ 0 ≤ s._cs := by
    intro p v hmem
    rw [h] at hmem
    by_cases hcs : s._cs ≥ 0
    · simp [GxEPD2_EPD.csWrite, hcs] at hmem
      rcases hmem with h1 | h1 <;> exact ⟨h1.1, hcs⟩
    · simp [GxEPD2_EPD.csWrite, hcs] at hmem
  refine ⟨h, ?_, ?_, ?_, hw, ?_, ?_⟩
  · rw [h]
    simp only [List.append_assoc, List.singleton_append]
    simp [transferred, transferred_csWrite, transferred_map_transfer]
  · rw [h]
    by_cases hcs : s._cs ≥ 0 <;>
      simp [GxEPD2_EPD.csWrite, hcs, List.count_cons, List.count_eq_zero]
  · rw [h]
    by_cases hcs : s._cs ≥ 0 <;>
      simp [GxEPD2_EPD.csWrite, hcs, List.count_cons, List.count_eq_zero]
  · intro hne v hmem
    exact hne (hw _ v hmem).1
  · intro h1
    subst h1
    rw [h]
    by_cases hcs : s._cs ≥ 0 <;>
      simp [GxEPD2_EPD._writeData, Run.bind_eq, Run.pure_eq, emit, GxEPD2_EPD.csWrite, hcs,
        List.range_succ]

theorem writeData_n_framing_witness :
    ((3 < 65536 ∧ 3 < 4) ∧
      GxEPD2_EPD._writeData_n sample sampleData 3 4
        = ⟨[.beginTransaction, .digitalWrite 5 .LOW, .transfer 0, .transfer 1, .transfer 2,
            .digitalWrite 5 .HIGH, .endTransaction], some ()⟩)
    ∧ (sample._dc ≠ sample._cs ∧
      ∀ v : Level,
        Event.digitalWrite sample._dc v ∉ (GxEPD2_EPD._writeData_n sample sampleData 3 4).trace)
    ∧ ((1 < 65536 ∧ 1 < 2 ∧ 1 = 1) ∧
      GxEPD2_EPD._writeData_n sample sampleData 1 2 = GxEPD2_EPD._writeData sample (sampleData 0)) :=
  ⟨⟨by decide, (writeData_n_framing sample sampleData 3 4 (by decide) (by decide)).1⟩,
    ⟨by decide,
      (writeData_n_framing sample sampleData 3 4 (by decide) (by decide)).2.2.2.2.2.1
        (by decide)⟩,
    ⟨by decide,
      (writeData_n_framing sample sampleData 1 2 (by decide) (by decide)).2.2.2.2.2.2 rfl⟩⟩

/-! ## Initialisation and reset -/

/-- C5 fails for `_pulldown_rst_mode`: the constructor does not assign this member, so
an object constructed while the member holds `true` has it `true`, and `init(bitrate)`
sets it to `false`: on this flag the state after `init(bitrate)` is not the state the
constructor establishes. -/
theorem init_pulldown_differs_from_constructor :
    samplePulldown._pulldown_rst_mode = true
      ∧ (GxEPD2_EPD.init1 samplePulldown 0).1._pulldown_rst_mode = false
      ∧ (GxEPD2_EPD.init1 samplePulldown 0).1._pulldown_rst_mode
          ≠ (GxEPD2_EPD.construct 5 6 7 8 1 3000 200 200 0 false true true
              true)._pulldown_rst_mode := by
  decide

/-- C5, amended: whatever the state before the call, after
`init(bitrate, initial, pulldown_rst_mode)` `_initial_write` and `_initial_refresh` equal
`initial`, `_pulldown_rst_mode` equals the argument, and `_power_is_on`,
`_using_partial_mode`, `_hibernating`, `_init_display_done`, `_timeout_expired` are
false; `_cs`, `_dc`, `_rst`, `_busy`, `_busy_level`, `_busy_timeout` are unchanged;
`init(bitrate)` is `init(bitrate, true, false)`; and the seven flags the constructor
assigns (`_initial_write`, `_initial_refresh`, `_power_is_on`, `_using_partial_mode`,
`_hibernating`, `_init_display_done`, `_timeout_expired`) have after `init(bitrate)` the
values the constructor gives them, whatever `_pulldown_rst_mode` held at construction. -/
theorem init_resets_flags (s : GxEPD2_EPD) (bitrate : Nat) (initial pulldown_rst_mode : Bool) :
    ((GxEPD2_EPD.init s bitrate initial pulldown_rst_mode).1._initial_write = initial
      ∧ (GxEPD2_EPD.init s bitrate initial pulldown_rst_mode).1._initial_refresh = initial
      ∧ (GxEPD2_EPD.init s bitrate initial pulldown_rst_mode).1._pulldown_rst_mode
          = pulldown_rst_mode
      ∧ (GxEPD2_EPD.init s bitrate initial pulldown_rst_mode).1._power_is_on = false
      ∧ (GxEPD2_EPD.init s bitrate initial pulldown_rst_mode).1._using_partial_mode = false
      ∧ (GxEPD2_EPD.init s bitrate initial pulldown_rst_mode).1._hibernating = false
      ∧ (GxEPD2_EPD.init s bitrate initial pulldown_rst_mode).1._init_display_done = false
      ∧ (GxEPD2_EPD.init s bitrate initial pulldown_rst_mode).1._timeout_expired = false)
    ∧ ((GxEPD2_EPD.init s bitrate initial pulldown_rst_mode).1._cs = s._cs
      ∧ (GxEPD2_EPD.init s bitrate initial pulldown_rst_mode).1._dc = s._dc
      ∧ (GxEPD2_EPD.init s bitrate initial pulldown_rst_mode).1._rst = s._rst
      ∧ (GxEPD2_EPD.init s bitrate initial pulldown_rst_mode).1._busy = s._busy
      ∧ (GxEPD2_EPD.init s bitrate initial pulldown_rst_mode).1._busy_level = s._busy_level
      ∧ (GxEPD2_EPD.init s bitrate initial pulldown_rst_mode).1._busy_timeout = s._busy_timeout)
    ∧ GxEPD2_EPD.init1 s bitrate = GxEPD2_EPD.init s bitrate true false
    ∧ (∀ (cs dc rst busy busy_level : Int) (busy_timeout w h p : Nat) (c pu fpu pd0 : Bool),
        (GxEPD2_EPD.init1 s bitrate).1._initial_write
            = (GxEPD2_EPD.construct cs dc rst busy busy_level busy_timeout w h p c pu fpu
                pd0)._initial_write
        ∧ (GxEPD2_EPD.init1 s bitrate).1._initial_refresh
            = (GxEPD2_EPD.construct cs dc rst busy busy_level busy_timeout w h p c pu fpu
                pd0)._initial_refresh
        ∧ (GxEPD2_EPD.init1 s bitrate).1._power_is_on
            = (GxEPD2_EPD.construct cs dc rst busy busy_level busy_timeout w h p c pu fpu
                pd0)._power_is_on
        ∧ (GxEPD2_EPD.init1 s bitrate).1._using_partial_mode
            = (GxEPD2_EPD.construct cs dc rst busy busy_level busy_timeout w h p c pu fpu
                pd0)._using_partial_mode
        ∧ (GxEPD2_EPD.init1 s bitrate).1._hibernating
            = (GxEPD2_EPD.construct cs dc rst busy busy_level busy_timeout w h p c pu fpu
                pd0)._hibernating
        ∧ (GxEPD2_EPD.init1 s bitrate).1._init_display_done
            = (GxEPD2_EPD.construct cs dc rst busy busy_level busy_timeout w h p c pu fpu
                pd0)._init_display_done
        ∧ (GxEPD2_EPD.init1 s bitrate).1._timeout_expired
            = (GxEPD2_EPD.construct cs dc rst busy busy_level busy_timeout w h p c pu fpu
                pd0)._timeout_expired) := by
  refine ⟨?_, ?_, rfl, ?_⟩
  · unfold GxEPD2_EPD.init GxEPD2_EPD._reset
    by_cases hb : bitrate > 0 <;> by_cases hr : s._rst ≥ 0 <;> simp [hb, hr]
  · unfold GxEPD2_EPD.init GxEPD2_EPD._reset
    by_cases hb : bitrate > 0 <;> by_cases hr : s._rst ≥ 0 <;> simp [hb, hr]
  · intro cs dc rst busy busy_level busy_timeout w h p c pu fpu pd0
    unfold GxEPD2_EPD.init1 GxEPD2_EPD.init GxEPD2_EPD._reset GxEPD2_EPD.construct
    by_cases hb : bitrate > 0 <;> by_cases hr : s._rst ≥ 0 <;> simp [hb, hr]

/-- C7: `_reset` with `_rst < 0` issues no event and leaves every field unchanged; with
`_rst >= 0` it sets `_hibernating` to false and leaves every other field unchanged, and
when `_pulldown_rst_mode` is false its events are exactly write HIGH, pinMode OUTPUT,
delay 20, write LOW, delay 20, write HIGH, delay 200 on `_rst`, so that the reset line is
HIGH afterwards. -/
theorem reset_frame (s : GxEPD2_EPD) :
    (s._rst < 0 → GxEPD2_EPD._reset s = (s, []))
    ∧ (0 ≤ s._rst → (GxEPD2_EPD._reset s).1 = { s with _hibernating := false })
    ∧ (0 ≤ s._rst → s._pulldown_rst_mode = false →
        (GxEPD2_EPD._reset s).2
            = [.digitalWrite s._rst .HIGH, .pinMode s._rst .OUTPUT, .delay 20,
               .digitalWrite s._rst .LOW, .delay 20,
               .digitalWrite s._rst .HIGH, .delay 200]
          ∧ ∀ v : Level, levelAfter s._rst v (GxEPD2_EPD._reset s).2 = Level.HIGH) := by
  refine ⟨?_, ?_, ?_⟩
  · intro h
    have hn : ¬ s._rst ≥ 0 := by omega
    simp [GxEPD2_EPD._reset, hn]
  · intro h
    simp [GxEPD2_EPD._reset, h]
  · intro h hp
    have ht : (GxEPD2_EPD._reset s).2
        = [.digitalWrite s._rst .HIGH, .pinMode s._rst .OUTPUT, .delay 20,
           .digitalWrite s._rst .LOW, .delay 20,
           .digitalWrite s._rst .HIGH, .delay 200] := by
      simp [GxEPD2_EPD._reset, h, hp]
    rw [ht]
    exact ⟨rfl, fun v => by simp [levelAfter]⟩

theorem reset_frame_witness :
    (sampleNoRst._rst < 0 ∧ GxEPD2_EPD._reset sampleNoRst = (sampleNoRst, []))
    ∧ ((0 ≤ sample._rst ∧ sample._pulldown_rst_mode = false)
        ∧ (GxEPD2_EPD._reset { sample with _hibernating := true }).1 = sample
        ∧ (GxEPD2_EPD._reset sample).2
            = [.digitalWrite 7 .HIGH, .pinMode 7 .OUTPUT, .delay 20,
               .digitalWrite 7 .LOW, .delay 20, .digitalWrite 7 .HIGH, .delay 200]) :=
  ⟨⟨by decide, (reset_frame sampleNoRst).1 (by decide)⟩,
    ⟨by decide, rfl⟩,
    (reset_frame { sample with _hibernating := true }).2.1 (by decide),
    ((reset_frame sample).2.2 (by decide) rfl).1⟩

/-! ## Command-plus-data framing -/

/-- The loop of `_writeCommandData` for a `uint8_t datalen`: it transfers the bytes at
offsets 1 .. datalen - 1 and nothing when `datalen` is 0. -/
theorem commandData_loop (body : Nat → List Event) (datalen fuel : Nat)
    (hd : datalen < 256) (hf : datalen < fuel) :
    forLoop 256 ((datalen : Int) - 1) body fuel 0 1
      = ⟨(List.range (datalen - 1)).flatMap (fun j => body (1 + j)), some ()⟩ := by
  by_cases h0 : datalen = 0
  · subst h0
    obtain ⟨f, rfl⟩ : ∃ f, fuel = f + 1 := ⟨fuel - 1, by omega⟩
    rw [forLoop_exit 256 _ body f 0 1 (by norm_num)]
    simp
  · have hb : ((datalen : Int) - 1) = ((datalen - 1 : Nat) : Int) := by omega
    rw [hb, forLoop_run 256 (datalen - 1) body (by omega) fuel 0 1 (Nat.zero_le _) (by omega)]
    simp

theorem writeCommandData_run (s : GxEPD2_EPD) (p : Nat → Byte) (datalen fuel : Nat)
    (hd : datalen < 256) (hf : datalen < fuel) :
    GxEPD2_EPD._writeCommandData s p datalen fuel
      = ⟨[Event.beginTransaction] ++ GxEPD2_EPD.dcWrite s .LOW ++ GxEPD2_EPD.csWrite s .LOW
          ++ [Event.transfer (p 0)] ++ GxEPD2_EPD.dcWrite s .HIGH
          ++ (List.range (datalen - 1)).map (fun j => Event.transfer (p (1 + j)))
          ++ GxEPD2_EPD.csWrite s .HIGH ++ [Event.endTransaction], some ()⟩ := by
  have hloop := commandData_loop (fun q => [Event.transfer (p q)]) datalen fuel hd hf
  simp only [flatMap_single] at hloop
  unfold GxEPD2_EPD._writeCommandData
  rw [hloop]
  by_cases hcs : s._cs ≥ 0 <;> by_cases hdc : s._dc ≥ 0 <;>
    simp [Run.bind_eq, Run.pure_eq, emit, GxEPD2_EPD.csWrite, GxEPD2_EPD.dcWrite, hcs, hdc]

theorem transfersAt_map_transfer (dc cs : Int) (d c : Level) (f : Nat → Byte) (l : List Nat)
    (tail : List Event) :
    transfersAt dc cs d c (l.map (fun i => Event.transfer (f i)) ++ tail)
      = l.map (fun i => (f i, d, c)) ++ transfersAt dc cs d c tail := by
  induction l with
  | nil => rfl
  | cons a l ih => simp [transfersAt, ih]

theorem levelAfter_append (pin : Int) (v : Level) (a b : List Event) :
    levelAfter pin v (a ++ b) = levelAfter pin (levelAfter pin v a) b := by
  induction a generalizing v with
  | nil => rfl
  | cons e a ih => cases e <;> simp [levelAfter, ih]

theorem levelAfter_map_transfer (pin : Int) (v : Level) (f : Nat → Byte) (l : List Nat) :
    levelAfter pin v (l.map (fun i => Event.transfer (f i))) = v := by
  induction l with
  | nil => rfl
  | cons a l ih => simp [levelAfter, ih]

/-- C6: for every `datalen` in 0..255, `_writeCommandData(p, datalen)` returns after
issuing beginTransaction, DC low, CS low, transfer(p[0]), DC high,
transfer(p[1]) ... transfer(p[datalen-1]), CS high, endTransaction (pin writes only for
pins `>= 0`).  The bytes transferred are p[0 .. max(datalen,1)-1], so `max(datalen, 1)`
in number and only the command byte for `datalen = 0`; with distinct DC and CS pins the
command byte goes out with DC low and CS low, every later byte with DC high and CS low,
and CS is high afterwards.  `_writeCommandDataPGM` issues the same events. -/
theorem writeCommandData_framing (s : GxEPD2_EPD) (p : Nat → Byte) (datalen fuel : Nat)
    (hd : datalen < 256) (hf : datalen < fuel) :
    GxEPD2_EPD._writeCommandData s p datalen fuel
        = ⟨[Event.beginTransaction] ++ GxEPD2_EPD.dcWrite s .LOW ++ GxEPD2_EPD.csWrite s .LOW
            ++ [Event.transfer (p 0)] ++ GxEPD2_EPD.dcWrite s .HIGH
            ++ (List.range (datalen - 1)).map (fun j => Event.transfer (p (1 + j)))
            ++ GxEPD2_EPD.csWrite s .HIGH ++ [Event.endTransaction], some ()⟩
      ∧ transferred (GxEPD2_EPD._writeCommandData s p datalen fuel).trace
          = (List.range (max datalen 1)).map p
      ∧ (transferred (GxEPD2_EPD._writeCommandData s p datalen fuel).trace).length
          = max datalen 1
      ∧ (datalen = 0 →
          transferred (GxEPD2_EPD._writeCommandData s p datalen fuel).trace = [p 0])
      ∧ (0 ≤ s._dc → 0 ≤ s._cs → s._dc ≠ s._cs →
          (∀ d0 c0 : Level,
            transfersAt s._dc s._cs d0 c0 (GxEPD2_EPD._writeCommandData s p datalen fuel).trace
              = (p 0, Level.LOW, Level.LOW)
                :: (List.range (datalen - 1)).map (fun j => (p (1 + j), Level.HIGH, Level.LOW)))
          ∧ ∀ v : Level,
            levelAfter s._cs v (GxEPD2_EPD._writeCommandData s p datalen fuel).trace
              = Level.HIGH)
      ∧ GxEPD2_EPD._writeCommandDataPGM s p datalen fuel
          = GxEPD2_EPD._writeCommandData s p datalen fuel := by
  have h := writeCommandData_run s p datalen fuel hd hf
  have htr : transferred (GxEPD2_EPD._writeCommandData s p datalen fuel).trace
      = (List.range (max datalen 1)).map p := by
    rw [h]
    have hmax : max datalen 1 = (datalen - 1) + 1 := by omega
    rw [hmax, List.range_succ_eq_map]
    by_cases hcs : s._cs ≥ 0 <;> by_cases hdc : s._dc ≥ 0 <;>
      simp [GxEPD2_EPD.csWrite, GxEPD2_EPD.dcWrite, hcs, hdc, transferred,
        transferred_map_transfer, List.map_map, Function.comp_def, Nat.succ_eq_add_one,
        Nat.add_comm]
  refine ⟨h, htr, ?_, ?_, ?_, rfl⟩
  · rw [htr]
    simp
  · intro h0
    rw [htr, h0]
    rfl
  · intro hdc hcs hne
    have hne2 : s._cs ≠ s._dc := fun e => hne e.symm
    rw [h]
    constructor
    · intro d0 c0
      simp [GxEPD2_EPD.csWrite, GxEPD2_EPD.dcWrite, hcs, hdc, hne, hne2, transfersAt,
        transfersAt_map_transfer]
    · intro v
      simp [GxEPD2_EPD.csWrite, GxEPD2_EPD.dcWrite, hcs, hdc, hne, hne2, levelAfter,
        levelAfter_append, levelAfter_map_transfer]

theorem writeCommandData_framing_witness :
    ((0 < 256 ∧ 0 < 1 ∧ 0 = 0) ∧
      GxEPD2_EPD._writeCommandData sample sampleData 0 1
        = ⟨[.beginTransaction, .digitalWrite 6 .LOW, .digitalWrite 5 .LOW, .transfer 0,
            .digitalWrite 6 .HIGH, .digitalWrite 5 .HIGH, .endTransaction], some ()⟩
      ∧ transferred (GxEPD2_EPD._writeCommandData sample sampleData 0 1).trace
          = [sampleData 0])
    ∧ ((3 < 256 ∧ 3 < 4 ∧ (0 : Int) ≤ sample._dc ∧ (0 : Int) ≤ sample._cs
          ∧ sample._dc ≠ sample._cs) ∧
      transfersAt 6 5 .HIGH .HIGH (GxEPD2_EPD._writeCommandData sample sampleData 3 4).trace
        = [(0, .LOW, .LOW), (1, .HIGH, .LOW), (2, .HIGH, .LOW)]) :=
  ⟨⟨by decide, (writeCommandData_framing sample sampleData 0 1 (by decide) (by decide)).1,
      (writeCommandData_framing sample sampleData 0 1 (by decide) (by decide)).2.2.2.1 rfl⟩,
    ⟨by decide,
      ((writeCommandData_framing sample sampleData 3 4 (by decide) (by decide)).2.2.2.2.1
        (by decide) (by decide) (by decide)).1 .HIGH .HIGH⟩⟩

/-! ## Program-memory data: one CS bracket against one bracket per byte -/

theorem writeDataPGM_run (s : GxEPD2_EPD) (data : Nat → Byte) (n : Nat) (fill : Int)
    (fuel : Nat) (hn : n < 65536) (hf : n < fuel) (hz : fill.toNat < fuel) :
    GxEPD2_EPD._writeDataPGM s data n fill fuel
      = ⟨[Event.beginTransaction] ++ GxEPD2_EPD.csWrite s .LOW
          ++ (List.range n).map (fun i => Event.transfer (data i))
          ++ (List.range fill.toNat).map (fun _ => Event.transfer 0)
          ++ GxEPD2_EPD.csWrite s .HIGH ++ [Event.endTransaction], some ()⟩ := by
  have hloop := forLoop_run 65536 n (fun p => [Event.transfer (data p)]) hn fuel 0 0
    (Nat.zero_le n) (by omega)
  have hfill := fillLoop_run [Event.transfer 0] fuel fill hz
  simp only [Nat.sub_zero, Nat.zero_add, flatMap_single] at hloop hfill
  unfold GxEPD2_EPD._writeDataPGM
  rw [hloop, hfill]
  by_cases hcs : s._cs ≥ 0 <;>
    simp [Run.bind_eq, Run.pure_eq, emit, GxEPD2_EPD.csWrite, hcs]

theorem writeDataPGM_sCS_run (s : GxEPD2_EPD) (data : Nat → Byte) (n : Nat) (fill : Int)
    (fuel : Nat) (hn : n < 256) (hf : n < fuel) (hz : fill.toNat < fuel) :
    GxEPD2_EPD._writeDataPGM_sCS s data n fill fuel
      = ⟨[Event.beginTransaction]
          ++ (List.range n).flatMap (fun i =>
              GxEPD2_EPD.csWrite s .LOW ++ [Event.transfer (data i)] ++ GxEPD2_EPD.csWrite s .HIGH)
          ++ (List.range fill.toNat).flatMap (fun _ =>
              GxEPD2_EPD.csWrite s .LOW ++ [Event.transfer 0] ++ GxEPD2_EPD.csWrite s .HIGH)
          ++ [Event.endTransaction], some ()⟩ := by
  have hloop := forLoop_run 256 n
    (fun p => GxEPD2_EPD.csWrite s .LOW ++ [Event.transfer (data p)] ++ GxEPD2_EPD.csWrite s .HIGH)
    hn fuel 0 0 (Nat.zero_le n) (by omega)
  have hfill := fillLoop_run
    (GxEPD2_EPD.csWrite s .LOW ++ [Event.transfer 0] ++ GxEPD2_EPD.csWrite s .HIGH) fuel fill hz
  simp only [Nat.sub_zero, Nat.zero_add] at hloop hfill
  unfold GxEPD2_EPD._writeDataPGM_sCS
  rw [hloop, hfill]
  simp [Run.bind_eq, emit]

/-- A `uint8_t` counter never reaches a bound of 256 or more: the loop does not return. -/
theorem forLoop_u8_stuck (bound : Int) (body : Nat → List Event) (hb : 256 ≤ bound) :
    ∀ fuel i p : Nat, i < 256 → (forLoop 256 bound body fuel i p).result = none := by
  intro fuel
  induction fuel with
  | zero => intro i p _; rfl
  | succ fuel ih =>
    intro i p hi
    have hlt : (i : Int) < bound := by omega
    rw [forLoop, if_pos hlt]
    exact ih ((i + 1) % 256) (p + 1) (Nat.mod_lt _ (by decide))

theorem transferred_append (a b : List Event) :
    transferred (a ++ b) = transferred a ++ transferred b := by
  induction a with
  | nil => rfl
  | cons e a ih => cases e <;> simp [transferred, ih]

theorem transferred_bracket (s : GxEPD2_EPD) (f : Nat → Byte) (l : List Nat) :
    transferred (l.flatMap (fun i =>
      GxEPD2_EPD.csWrite s .LOW ++ [Event.transfer (f i)] ++ GxEPD2_EPD.csWrite s .HIGH))
      = l.map f := by
  induction l with
  | nil => rfl
  | cons a l ih =>
    rw [List.flatMap_cons, transferred_append, ih]
    by_cases hcs : s._cs ≥ 0 <;> simp [GxEPD2_EPD.csWrite, hcs, transferred]

theorem transferred_replicate (k : Nat) (b : Byte) (tail : List Event) :
    transferred (List.replicate k (Event.transfer b) ++ tail)
      = List.replicate k b ++ transferred tail := by
  induction k with
  | zero => rfl
  | succ k ih => simp [List.replicate_succ, transferred, ih]

theorem map_const_range {α : Type} (a : α) (k : Nat) :
    (List.range k).map (fun _ => a) = List.replicate k a := by
  induction k with
  | zero => rfl
  | succ k ih => rw [List.range_succ, List.map_append, ih, List.replicate_succ']; rfl

/-- The bytes `_writeDataPGM` transfers: data[0..n-1], then max(fill_with_zeroes, 0) zeroes. -/
theorem writeDataPGM_bytes (s : GxEPD2_EPD) (data : Nat → Byte) (n : Nat) (fill : Int)
    (fuel : Nat) (hn : n < 65536) (hf : n < fuel) (hz : fill.toNat < fuel) :
    transferred (GxEPD2_EPD._writeDataPGM s data n fill fuel).trace
      = (List.range n).map data ++ List.replicate fill.toNat 0 := by
  rw [writeDataPGM_run s data n fill fuel hn hf hz]
  simp only [List.append_assoc, List.singleton_append, map_const_range]
  simp [transferred, transferred_csWrite, transferred_map_transfer, transferred_replicate]

/-- For `n` up to 255 the two functions return and transfer the same bytes: data[0..n-1]
followed by max(fill_with_zeroes, 0) zero bytes. -/
theorem writeDataPGM_sCS_same_bytes (s : GxEPD2_EPD) (data : Nat → Byte) (n : Nat) (fill : Int)
    (fuel : Nat) (hn : n < 256) (hf : n < fuel) (hz : fill.toNat < fuel) :
    (GxEPD2_EPD._writeDataPGM_sCS s data n fill fuel).result = some ()
      ∧ (GxEPD2_EPD._writeDataPGM s data n fill fuel).result = some ()
      ∧ transferred (GxEPD2_EPD._writeDataPGM_sCS s data n fill fuel).trace
          = (List.range n).map data ++ List.replicate fill.toNat 0
      ∧ transferred (GxEPD2_EPD._writeDataPGM s data n fill fuel).trace
          = (List.range n).map data ++ List.replicate fill.toNat 0 := by
  refine ⟨?_, ?_, ?_, writeDataPGM_bytes s data n fill fuel (by omega) hf hz⟩
  · rw [writeDataPGM_sCS_run s data n fill fuel hn hf hz]
  · rw [writeDataPGM_run s data n fill fuel (by omega) hf hz]
  · rw [writeDataPGM_sCS_run s data n fill fuel hn hf hz]
    simp only [transferred_append, transferred_bracket]
    simp [transferred, map_const_range]

/-- While the `uint8_t` counter is stuck below its bound, every iteration transfers one
more byte: `fuel` iterations transfer `fuel` bytes. -/
theorem forLoop_u8_stuck_bytes (s : GxEPD2_EPD) (data : Nat → Byte) (bound : Int)
    (hb : 256 ≤ bound) :
    ∀ fuel i p : Nat, i < 256 →
      (transferred (forLoop 256 bound (fun p => GxEPD2_EPD.csWrite s .LOW
        ++ [Event.transfer (data p)] ++ GxEPD2_EPD.csWrite s .HIGH) fuel i p).trace).length
        = fuel := by
  intro fuel
  induction fuel with
  | zero => intro i p _; rfl
  | succ fuel ih =>
    intro i p hi
    have hlt : (i : Int) < bound := by omega
    rw [forLoop, if_pos hlt]
    simp only [transferred_append, List.length_append]
    rw [ih ((i + 1) % 256) (p + 1) (Nat.mod_lt _ (by decide))]
    by_cases hcs : s._cs ≥ 0 <;> simp [GxEPD2_EPD.csWrite, hcs, transferred] <;> omega

/-- C8 at `n = 256` (and any larger `n = 256 + k`): `_writeDataPGM_sCS` does not return,
however many iterations it is given, and its first `fuel` iterations transfer `fuel`
bytes, so eventually more than `n`; whereas `_writeDataPGM(data, 256, 0)` returns after
transferring 256 bytes. -/
theorem writeDataPGM_sCS_stuck_from_256 :
    (∀ (s : GxEPD2_EPD) (data : Nat → Byte) (k : Nat) (fill : Int) (fuel : Nat),
        (GxEPD2_EPD._writeDataPGM_sCS s data (256 + k) fill fuel).result = none
        ∧ (transferred (GxEPD2_EPD._writeDataPGM_sCS s data (256 + k) fill fuel).trace).length
            = fuel)
    ∧ (GxEPD2_EPD._writeDataPGM sample sampleData 256 0 257).result = some ()
    ∧ (transferred (GxEPD2_EPD._writeDataPGM sample sampleData 256 0 257).trace).length
        = 256 := by
  refine ⟨?_, ?_, ?_⟩
  · intro s data k fill fuel
    have hstuck := forLoop_u8_stuck ((256 + k : Nat) : Int)
      (fun p => GxEPD2_EPD.csWrite s .LOW ++ [Event.transfer (data p)]
        ++ GxEPD2_EPD.csWrite s .HIGH) (by omega) fuel 0 0 (by decide)
    have hbytes := forLoop_u8_stuck_bytes s data ((256 + k : Nat) : Int) (by omega) fuel 0 0
      (by decide)
    unfold GxEPD2_EPD._writeDataPGM_sCS
    simp only [Run.bind_eq, emit, hstuck]
    exact ⟨trivial, by simpa [transferred] using hbytes⟩
  · rw [writeDataPGM_run sample sampleData 256 0 257 (by decide) (by decide) (by decide)]
  · rw [writeDataPGM_bytes sample sampleData 256 0 257 (by decide) (by decide) (by decide)]
    simp only [List.length_append, List.length_map, List.length_range, List.length_replicate]
    rfl

/-! ## Busy wait -/

theorem timeoutBranchFrom_shift (s : GxEPD2_EPD) (env : Env) (start nr nt : Nat)
    (h1 : env.pinRead nr = s._busy_level) (h2 : env.pinRead (nr + 1) = s._busy_level)
    (h3 : ¬ s._busy_timeout < elapsedSince start (env.micros nt)) :
    (∃ k, timeoutBranchFrom s env start nr nt k)
      ↔ ∃ k, timeoutBranchFrom s env start (nr + 2) (nt + 1) k := by
  have e1 : ∀ j, nr + 2 * (j + 1) = nr + 2 + 2 * j := fun j => by ring
  have e2 : ∀ j, nt + (j + 1) = nt + 1 + j := fun j => by ring
  constructor
  · rintro ⟨k, hk⟩
    cases k with
    | zero => exact absurd (by simpa using hk.2.2.2) h3
    | succ k =>
      refine ⟨k, fun j hj => ?_, ?_⟩
      · have := hk.1 (j + 1) (by omega)
        rwa [e1, e2] at this
      · have := hk.2
        rwa [e1, e2] at this
  · rintro ⟨k, hk⟩
    refine ⟨k + 1, fun j hj => ?_, ?_⟩
    · cases j with
      | zero => exact ⟨by simpa using h1, by simpa using h2, by simpa using h3⟩
      | succ j =>
        have := hk.1 j (by omega)
        rwa [e1, e2]
    · have := hk.2
      rwa [e1, e2]

/-- What the polling loop does to the driver state when it returns: only
`_timeout_expired` can change, and it is set exactly when it was set before or the loop
leaves through the timeout branch. -/
theorem busyLoop_flag (s : GxEPD2_EPD) (env : Env) (start : Nat) :
    ∀ (fuel nr nt : Nat) (s1 : GxEPD2_EPD) (nt1 : Nat),
      (GxEPD2_EPD.busyLoop s env start fuel nr nt).result = some (s1, nt1) →
        s1 = { s with _timeout_expired := s1._timeout_expired }
        ∧ (s1._timeout_expired = true
            ↔ s._timeout_expired = true ∨ ∃ k, timeoutBranchFrom s env start nr nt k) := by
  intro fuel
  induction fuel with
  | zero => intro nr nt s1 nt1 h; simp [GxEPD2_EPD.busyLoop] at h
  | succ fuel ih =>
    intro nr nt s1 nt1 h
    unfold GxEPD2_EPD.busyLoop at h
    by_cases h1 : env.pinRead nr = s._busy_level
    · by_cases h2 : env.pinRead (nr + 1) = s._busy_level
      · by_cases h3 : s._busy_timeout < elapsedSince start (env.micros nt)
        · simp only [ne_eq, h1, h2, not_true_eq_false, if_false, gt_iff_lt, h3, if_true,
            Option.some.injEq, Prod.mk.injEq] at h
          obtain ⟨hs, -⟩ := h
          subst hs
          refine ⟨rfl, ?_⟩
          simp only [true_iff]
          exact Or.inr ⟨0, fun j hj => absurd hj (Nat.not_lt_zero j), by simpa using h1,
            by simpa using h2, by simpa using h3⟩
        · simp only [ne_eq, h1, h2, not_true_eq_false, if_false, gt_iff_lt, h3] at h
          obtain ⟨hs, hflag⟩ := ih (nr + 2) (nt + 1) s1 nt1 h
          exact ⟨hs, by rw [hflag, timeoutBranchFrom_shift s env start nr nt h1 h2 h3]⟩
      · simp only [ne_eq, h1, h2, not_true_eq_false, if_false, not_false_eq_true, if_true,
          Option.some.injEq, Prod.mk.injEq] at h
        obtain ⟨hs, -⟩ := h
        subst hs
        refine ⟨rfl, ?_⟩
        constructor
        · exact Or.inl
        · rintro (hf | ⟨k, hk⟩)
          · exact hf
          · cases k with
            | zero => exact absurd (by simpa using hk.2.2.1) h2
            | succ k => exact absurd (by simpa using (hk.1 0 (by omega)).2.1) h2
    · simp only [ne_eq, h1, not_false_eq_true, if_true, Option.some.injEq,
        Prod.mk.injEq] at h
      obtain ⟨hs, -⟩ := h
      subst hs
      refine ⟨rfl, ?_⟩
      constructor
      · exact Or.inl
      · rintro (hf | ⟨k, hk⟩)
        · exact hf
        · cases k with
          | zero => exact absurd (by simpa using hk.2.1) h1
          | succ k => exact absurd (by simpa using (hk.1 0 (by omega)).1) h1

/-- When iteration `k` leaves through the timeout branch, `k + 1` iterations suffice for
the loop to return, and it returns with `_timeout_expired` set. -/
theorem busyLoop_returns (s : GxEPD2_EPD) (env : Env) (start : Nat) :
    ∀ (k nr nt fuel : Nat), timeoutBranchFrom s env start nr nt k → k < fuel →
      (GxEPD2_EPD.busyLoop s env start fuel nr nt).result
        = some ({ s with _timeout_expired := true }, nt + k + 1) := by
  intro k
  induction k with
  | zero =>
    intro nr nt fuel hk hf
    obtain ⟨f, rfl⟩ : ∃ f, fuel = f + 1 := ⟨fuel - 1, by omega⟩
    obtain ⟨-, h1, h2, h3⟩ := hk
    simp only [Nat.mul_zero, Nat.add_zero] at h1 h2 h3
    simp [GxEPD2_EPD.busyLoop, h1, h2, h3]
  | succ k ih =>
    intro nr nt fuel hk hf
    obtain ⟨f, rfl⟩ : ∃ f, fuel = f + 1 := ⟨fuel - 1, by omega⟩
    have h0 := hk.1 0 (by omega)
    simp only [Nat.mul_zero, Nat.add_zero] at h0
    obtain ⟨h1, h2, h3⟩ := h0
    have hshift : timeoutBranchFrom s env start (nr + 2) (nt + 1) k := by
      have e1 : ∀ j, nr + 2 * (j + 1) = nr + 2 + 2 * j := fun j => by ring
      have e2 : ∀ j, nt + (j + 1) = nt + 1 + j := fun j => by ring
      refine ⟨fun j hj => ?_, ?_⟩
      · have := hk.1 (j + 1) (by omega)
        rwa [e1, e2] at this
      · have := hk.2
        rwa [e1, e2] at this
    have := ih (nr + 2) (nt + 1) f hshift (by omega)
    unfold GxEPD2_EPD.busyLoop
    simp only [ne_eq, h1, h2, not_true_eq_false, if_false, gt_iff_lt, h3]
    rw [this]
    simp [Nat.add_assoc, Nat.add_comm 1]

/-- With a busy pin, `_waitWhileBusy` returns exactly when its loop does, with the state
the loop produced. -/
theorem waitWhileBusy_result (s : GxEPD2_EPD) (env : Env) (comment : Option String)
    (busy_time fuel : Nat) (hb : 0 ≤ s._busy) :
    (GxEPD2_EPD._waitWhileBusy s env comment busy_time fuel).result
      = (GxEPD2_EPD.busyLoop s env (env.micros 0) fuel 0 1).result.map Prod.fst := by
  unfold GxEPD2_EPD._waitWhileBusy
  simp only [ge_iff_le, hb, if_true, Run.bind_eq, emit]
  cases hres : (GxEPD2_EPD.busyLoop s env (env.micros 0) fuel 0 1).result with
  | none => rfl
  | some r =>
    obtain ⟨s1, nt⟩ := r
    cases comment with
    | none => rfl
    | some text => by_cases hd : s1._diag_enabled <;> simp [hd, Run.pure_eq, Run.bind_eq]

/-- C1: on the build without the ESP8266 / ESP32 / NRF52 / RP2040 blocks, for every
starting state, pin-read sequence and clock sequence: whenever `_waitWhileBusy` returns,
`_timeout_expired` is true afterwards if and only if it was true before, or `_busy >= 0`
and the loop left through the timeout branch (in some reached iteration both
`digitalRead(_busy)` results equalled `_busy_level` and `(micros() - start) mod 2^32`
exceeded `_busy_timeout`); a flag that was true stays true, and no other field changes.
When an iteration takes the timeout branch the call does return, with the flag set.
When `_busy < 0` the call only issues `delay(busy_time)`, reads no pin and returns the
state unchanged. -/
theorem waitWhileBusy_flag (s : GxEPD2_EPD) (env : Env) (comment : Option String)
    (busy_time : Nat) :
    (∀ (fuel : Nat) (s1 : GxEPD2_EPD),
        (GxEPD2_EPD._waitWhileBusy s env comment busy_time fuel).result = some s1 →
          (s1._timeout_expired = true
              ↔ s._timeout_expired = true ∨ (0 ≤ s._busy ∧ LeftByTimeout s env))
          ∧ (s._timeout_expired = true → s1._timeout_expired = true)
          ∧ s1 = { s with _timeout_expired := s1._timeout_expired })
    ∧ (0 ≤ s._busy → ∀ k : Nat, timeoutBranchFrom s env (env.micros 0) 0 1 k →
        ∀ fuel : Nat, k < fuel →
          (GxEPD2_EPD._waitWhileBusy s env comment busy_time fuel).result
            = some { s with _timeout_expired := true })
    ∧ (s._busy < 0 → ∀ fuel : Nat,
        GxEPD2_EPD._waitWhileBusy s env comment busy_time fuel
          = ⟨[Event.delay busy_time], some s⟩) := by
  refine ⟨?_, ?_, ?_⟩
  · intro fuel s1 hres
    by_cases hb : 0 ≤ s._busy
    · rw [waitWhileBusy_result s env comment busy_time fuel hb] at hres
      cases hloop : (GxEPD2_EPD.busyLoop s env (env.micros 0) fuel 0 1).result with
      | none => simp [hloop] at hres
      | some r =>
        obtain ⟨s2, nt⟩ := r
        simp only [hloop, Option.map_some', Option.some.injEq] at hres
        subst hres
        obtain ⟨hs, hflag⟩ := busyLoop_flag s env (env.micros 0) fuel 0 1 s2 nt hloop
        refine ⟨?_, ?_, hs⟩
        · rw [hflag]
          simp [LeftByTimeout, hb]
        · intro h
          exact hflag.mpr (Or.inl h)
    · have hres2 : s1 = s := by
        unfold GxEPD2_EPD._waitWhileBusy at hres
        simp only [ge_iff_le, hb, if_false, Run.bind_eq, emit, Run.pure_eq,
          Option.some.injEq] at hres
        exact hres.symm
      subst hres2
      exact ⟨by simp [hb], fun h => h, rfl⟩
  · intro hb k hk fuel hf
    rw [waitWhileBusy_result s env comment busy_time fuel hb,
      busyLoop_returns s env (env.micros 0) k 0 1 fuel hk hf]
    rfl
  · intro hb fuel
    have hn : ¬ s._busy ≥ 0 := by omega
    unfold GxEPD2_EPD._waitWhileBusy
    simp [hn, Run.bind_eq, emit, Run.pure_eq]

theorem waitWhileBusy_flag_witness :
    ((GxEPD2_EPD._waitWhileBusy sample steadyBusy none 0 5).result
        = some { sample with _timeout_expired := true }
      ∧ (0 ≤ sample._busy ∧ LeftByTimeout sample steadyBusy))
    ∧ ((0 ≤ sample._busy ∧ timeoutBranchFrom sample steadyBusy (steadyBusy.micros 0) 0 1 3
          ∧ 3 < 4)
      ∧ (GxEPD2_EPD._waitWhileBusy sample steadyBusy none 0 4).result
          = some { sample with _timeout_expired := true })
    ∧ (sampleNoBusy._busy < 0
      ∧ GxEPD2_EPD._waitWhileBusy sampleNoBusy steadyBusy none 25 0
          = ⟨[Event.delay 25], some sampleNoBusy⟩) :=
  ⟨⟨by decide,
      (((waitWhileBusy_flag sample steadyBusy none 0).1 5
        { sample with _timeout_expired := true } (by decide)).1.mp rfl).resolve_left
        (by decide)⟩,
    ⟨⟨by decide, by decide, by decide⟩,
      (waitWhileBusy_flag sample steadyBusy none 0).2.1 (by decide) 3 (by decide) 4
        (by decide)⟩,
    ⟨by decide, (waitWhileBusy_flag sampleNoBusy steadyBusy none 25).2.2 (by decide) 0⟩⟩

/-! ## Termination of the busy wait -/

theorem elapsedSince_lt (start now : Nat) : elapsedSince start now < U32 := by
  unfold elapsedSince U32
  omega

/-- The unsigned difference of two readings of a counter that moved from `a` to `b`. -/
theorem elapsedSince_micros (a b : Nat) (h : a ≤ b) :
    elapsedSince (a % U32) (b % U32) = (b - a) % U32 := by
  unfold elapsedSince U32
  omega

/-- While the busy line stays at `_busy_level` and no clock reading gives an elapsed time
above `_busy_timeout`, the loop does not return. -/
theorem busyLoop_stuck (s : GxEPD2_EPD) (env : Env) (start : Nat)
    (hnever : ∀ k, ¬ s._busy_timeout < elapsedSince start (env.micros k))
    (hbusy : ∀ k, env.pinRead k = s._busy_level) :
    ∀ fuel nr nt : Nat, (GxEPD2_EPD.busyLoop s env start fuel nr nt).result = none := by
  intro fuel
  induction fuel with
  | zero => intro nr nt; rfl
  | succ fuel ih =>
    intro nr nt
    unfold GxEPD2_EPD.busyLoop
    simp only [ne_eq, hbusy, not_true_eq_false, if_false, gt_iff_lt, hnever nt]
    exact ih (nr + 2) (nt + 1)

/-- C2 fails for `_busy_timeout = 2^32 - 1`: with `_busy >= 0`, no busy callback, a clock
that advances by 1000 at every reading and the busy line held at `_busy_level`, the call
does not return, whatever number of iterations it is given. -/
theorem waitWhileBusy_max_timeout_never_returns :
    sampleMaxTimeout._busy_timeout < U32
      ∧ 0 ≤ sampleMaxTimeout._busy
      ∧ sampleMaxTimeout._busy_callback = false
      ∧ (∀ k, steadyBusy.clock k + 1000 ≤ steadyBusy.clock (k + 1))
      ∧ (∀ k, steadyBusy.pinRead k = sampleMaxTimeout._busy_level)
      ∧ ∀ fuel : Nat,
          (GxEPD2_EPD._waitWhileBusy sampleMaxTimeout steadyBusy none 0 fuel).result = none := by
  refine ⟨by decide, by decide, rfl, ?_, fun _ => rfl, ?_⟩
  · intro k
    show 1000 * k + 1000 ≤ 1000 * (k + 1)
    omega
  · intro fuel
    have hnever : ∀ k, ¬ sampleMaxTimeout._busy_timeout
        < elapsedSince (steadyBusy.micros 0) (steadyBusy.micros k) := by
      intro k
      have := elapsedSince_lt (steadyBusy.micros 0) (steadyBusy.micros k)
      have hT : sampleMaxTimeout._busy_timeout = 4294967295 := rfl
      unfold U32 at this
      omega
    rw [waitWhileBusy_result sampleMaxTimeout steadyBusy none 0 fuel (by decide),
      busyLoop_stuck sampleMaxTimeout steadyBusy _ hnever (fun _ => rfl) fuel 0 1]
    rfl

/-- A timeout just below the maximum is stepped over: with `_busy_timeout = 2^32 - 2` and
the clock advancing by exactly 1000 at every reading, the elapsed time modulo 2^32 is
always a multiple of 8 and never equals 2^32 - 1, so the call does not return either. -/
theorem waitWhileBusy_near_max_timeout_stepped_over (fuel : Nat) :
    (GxEPD2_EPD._waitWhileBusy { sample with _busy_timeout := 4294967294 } steadyBusy none 0
      fuel).result = none := by
  have hnever : ∀ k, ¬ ({ sample with _busy_timeout := 4294967294 } : GxEPD2_EPD)._busy_timeout
      < elapsedSince (steadyBusy.micros 0) (steadyBusy.micros k) := by
    intro k
    show ¬ 4294967294 < (1000 * k % 4294967296 + 4294967296 - 1000 * 0 % 4294967296) % 4294967296
    omega
  rw [waitWhileBusy_result _ steadyBusy none 0 fuel (by decide),
    busyLoop_stuck _ steadyBusy _ hnever (fun _ => rfl) fuel 0 1]
  rfl

theorem clock_mono (env : Env) (hstep : ∀ k, env.clock k + 1000 ≤ env.clock (k + 1)) :
    ∀ k, env.clock 0 ≤ env.clock k := by
  intro k
  induction k with
  | zero => exact Nat.le_refl _
  | succ k ih => have := hstep k; omega

/-- Under the bound on the clock step, the loop entered for its iteration after clock
reading `m`, with the elapsed time at reading `m` not above the timeout, returns within
`(timeout - elapsed) / 1000 + 1` iterations, whatever the pin reads. -/
theorem busyLoop_terminates (s : GxEPD2_EPD) (env : Env) (D : Nat)
    (hstep : ∀ k, env.clock k + 1000 ≤ env.clock (k + 1) ∧ env.clock (k + 1) ≤ env.clock k + D)
    (hT : s._busy_timeout + D < U32) :
    ∀ fuel nr m : Nat, env.clock m - env.clock 0 ≤ s._busy_timeout →
      (s._busy_timeout - (env.clock m - env.clock 0)) / 1000 < fuel →
      ∃ r, (GxEPD2_EPD.busyLoop s env (env.micros 0) fuel nr (m + 1)).result = some r := by
  have hmono := clock_mono env (fun k => (hstep k).1)
  intro fuel
  induction fuel with
  | zero => intro nr m _ h; omega
  | succ fuel ih =>
    intro nr m hm hf
    have h0 := hmono m
    have h1 := hmono (m + 1)
    obtain ⟨hlo, hhi⟩ := hstep m
    have hel : elapsedSince (env.micros 0) (env.micros (m + 1))
        = (env.clock (m + 1) - env.clock 0) % U32 := elapsedSince_micros _ _ h1
    have hsmall : env.clock (m + 1) - env.clock 0 < U32 := by omega
    rw [Nat.mod_eq_of_lt hsmall] at hel
    unfold GxEPD2_EPD.busyLoop
    by_cases r1 : env.pinRead nr = s._busy_level
    · by_cases r2 : env.pinRead (nr + 1) = s._busy_level
      · by_cases h3 : s._busy_timeout < env.clock (m + 1) - env.clock 0
        · exact ⟨({ s with _timeout_expired := true }, m + 1 + 1),
            by simp [r1, r2, hel, h3]⟩
        · obtain ⟨r, hr⟩ := ih (nr + 2) (m + 1) (by omega) (by omega)
          exact ⟨r, by simp [r1, r2, hel, h3, hr]⟩
      · exact ⟨(s, m + 1), by simp [r1, r2]⟩
    · exact ⟨(s, m + 1), by simp [r1]⟩

/-- Under the bound on the clock step and with the busy line held at `_busy_level`, the
loop returns by the timeout branch within `(timeout - elapsed) / 1000 + 1` iterations. -/
theorem busyLoop_times_out (s : GxEPD2_EPD) (env : Env) (D : Nat)
    (hstep : ∀ k, env.clock k + 1000 ≤ env.clock (k + 1) ∧ env.clock (k + 1) ≤ env.clock k + D)
    (hT : s._busy_timeout + D < U32) (hbusy : ∀ k, env.pinRead k = s._busy_level) :
    ∀ fuel nr m : Nat, env.clock m - env.clock 0 ≤ s._busy_timeout →
      (s._busy_timeout - (env.clock m - env.clock 0)) / 1000 < fuel →
      ∃ nt1, (GxEPD2_EPD.busyLoop s env (env.micros 0) fuel nr (m + 1)).result
        = some ({ s with _timeout_expired := true }, nt1) := by
  have hmono := clock_mono env (fun k => (hstep k).1)
  intro fuel
  induction fuel with
  | zero => intro nr m _ h; omega
  | succ fuel ih =>
    intro nr m hm hf
    have h0 := hmono m
    have h1 := hmono (m + 1)
    obtain ⟨hlo, hhi⟩ := hstep m
    have hel : elapsedSince (env.micros 0) (env.micros (m + 1))
        = (env.clock (m + 1) - env.clock 0) % U32 := elapsedSince_micros _ _ h1
    have hsmall : env.clock (m + 1) - env.clock 0 < U32 := by omega
    rw [Nat.mod_eq_of_lt hsmall] at hel
    unfold GxEPD2_EPD.busyLoop
    by_cases h3 : s._busy_timeout < env.clock (m + 1) - env.clock 0
    · exact ⟨m + 1 + 1, by simp [hbusy, hel, h3]⟩
    · obtain ⟨nt1, hnt1⟩ := ih (nr + 2) (m + 1) (by omega) (by omega)
      exact ⟨nt1, by simp [hbusy, hel, h3, hnt1]⟩

/-! ## Pin safety -/

theorem TraceOK.bind {α β : Type} {P : Event → Prop} {r : Run α} {k : α → Run β}
    (hr : TraceOK P r) (hk : ∀ a, TraceOK P (k a)) : TraceOK P (r >>= k) := by
  intro e he
  rw [Run.bind_eq] at he
  cases hres : r.result with
  | none =>
    rw [hres] at he
    exact hr e he
  | some a =>
    rw [hres] at he
    rcases List.mem_append.mp he with h | h
    · exact hr e h
    · exact hk a e h

theorem TraceOK.ite {α : Type} {P : Event → Prop} {c : Prop} {_ : Decidable c} {t f : Run α}
    (ht : c → TraceOK P t) (hf : ¬ c → TraceOK P f) : TraceOK P (if c then t else f) := by
  by_cases h : c
  · rw [if_pos h]; exact ht h
  · rw [if_neg h]; exact hf h

theorem TraceOK.pure {α : Type} {P : Event → Prop} (a : α) : TraceOK P (pure a : Run α) := by
  intro e he
  simp [Run.pure_eq] at he

theorem TraceOK.forLoop {P : Event → Prop} (modulus : Nat) (bound : Int)
    (body : Nat → List Event) (hbody : ∀ p, ∀ e ∈ body p, P e) :
    ∀ fuel i p : Nat, TraceOK P (forLoop modulus bound body fuel i p) := by
  intro fuel
  induction fuel with
  | zero => intro i p e he; simp [GxEPD2.forLoop] at he
  | succ fuel ih =>
    intro i p e he
    unfold GxEPD2.forLoop at he
    split at he
    · rcases List.mem_append.mp he with h | h
      · exact hbody p e h
      · exact ih _ _ e h
    · simp at he

theorem TraceOK.fillLoop {P : Event → Prop} (body : List Event) (hbody : ∀ e ∈ body, P e) :
    ∀ (fuel : Nat) (f : Int), TraceOK P (fillLoop body fuel f) := by
  intro fuel
  induction fuel with
  | zero => intro f e he; simp [GxEPD2.fillLoop] at he
  | succ fuel ih =>
    intro f e he
    unfold GxEPD2.fillLoop at he
    split at he
    · rcases List.mem_append.mp he with h | h
      · exact hbody e h
      · exact ih _ e h
    · simp at he

theorem TraceOK.busyLoop (s : GxEPD2_EPD) (env : Env) (start : Nat) (hb : 0 ≤ s._busy) :
    ∀ fuel nr nt : Nat, TraceOK (pinSafe s) (GxEPD2_EPD.busyLoop s env start fuel nr nt) := by
  intro fuel
  induction fuel with
  | zero => intro nr nt e he; simp [GxEPD2_EPD.busyLoop] at he
  | succ fuel ih =>
    intro nr nt e he
    have hwait : pinSafe s (if s._busy_callback then Event.busyCallback else Event.delay 1) := by
      intro pin hp
      by_cases hc : s._busy_callback <;> simp [hc, Event.pin?] at hp
    have hread : ∀ v, pinSafe s (Event.digitalRead s._busy v) := by
      intro v pin hp
      simp only [Event.pin?, Option.some.injEq] at hp
      subst hp
      exact ⟨hb, Or.inr (Or.inr (Or.inr rfl))⟩
    have hmic : ∀ v, pinSafe s (Event.micros v) := by
      intro v pin hp
      simp [Event.pin?] at hp
    unfold GxEPD2_EPD.busyLoop at he
    simp only at he
    split at he
    · simp only [List.mem_singleton] at he
      subst he
      exact hread _
    · split at he
      · simp only [List.mem_cons, List.mem_singleton, List.not_mem_nil, or_false] at he
        rcases he with h | h | h <;> subst h
        · exact hread _
        · exact hwait
        · exact hread _
      · split at he
        · simp only [List.mem_cons, List.mem_singleton, List.not_mem_nil, or_false] at he
          rcases he with h | h | h | h <;> subst h
          · exact hread _
          · exact hwait
          · exact hread _
          · exact hmic _
        · rcases List.mem_append.mp he with h | h
          · simp only [List.mem_cons, List.mem_singleton, List.not_mem_nil, or_false] at h
            rcases h with h | h | h | h <;> subst h
            · exact hread _
            · exact hwait
            · exact hread _
            · exact hmic _
          · exact ih _ _ e h

theorem TraceOK.emit {P : Event → Prop} (es : List Event) (h : ∀ e ∈ es, P e) :
    TraceOK P (emit es) := h

theorem pinSafe_of_pin_none (s : GxEPD2_EPD) (e : Event) (h : e.pin? = none) : pinSafe s e := by
  intro pin hp
  rw [h] at hp
  cases hp

theorem pinSafe_of_pin (s : GxEPD2_EPD) (e : Event) (p : Int) (h : e.pin? = some p)
    (h0 : 0 ≤ p) (hp : p = s._cs ∨ p = s._dc ∨ p = s._rst ∨ p = s._busy) : pinSafe s e := by
  intro pin hpin
  rw [h] at hpin
  cases hpin
  exact ⟨h0, hp⟩

theorem allSafe_nil (s : GxEPD2_EPD) : ∀ e ∈ ([] : List Event), pinSafe s e := by
  intro e he
  cases he

theorem allSafe_cons (s : GxEPD2_EPD) (x : Event) (l : List Event) (hx : pinSafe s x)
    (hl : ∀ e ∈ l, pinSafe s e) : ∀ e ∈ x :: l, pinSafe s e := by
  intro e he
  rcases List.mem_cons.mp he with h | h
  · rw [h]; exact hx
  · exact hl e h

theorem allSafe_append (s : GxEPD2_EPD) (a b : List Event) (ha : ∀ e ∈ a, pinSafe s e)
    (hb : ∀ e ∈ b, pinSafe s e) : ∀ e ∈ a ++ b, pinSafe s e := by
  intro e he
  rcases List.mem_append.mp he with h | h
  · exact ha e h
  · exact hb e h

theorem pinSafe_csWrite (s : GxEPD2_EPD) (v : Level) :
    ∀ e ∈ GxEPD2_EPD.csWrite s v, pinSafe s e := by
  unfold GxEPD2_EPD.csWrite
  split
  · rename_i hcs
    exact allSafe_cons s _ _ (pinSafe_of_pin s _ _ rfl hcs (Or.inl rfl)) (allSafe_nil s)
  · exact allSafe_nil s

theorem pinSafe_transfer (s : GxEPD2_EPD) (b : Byte) : ∀ e ∈ [Event.transfer b], pinSafe s e :=
  allSafe_cons s _ _ (pinSafe_of_pin_none s _ rfl) (allSafe_nil s)

theorem pinSafe_bracket (s : GxEPD2_EPD) (b : Byte) :
    ∀ e ∈ GxEPD2_EPD.csWrite s .LOW ++ [Event.transfer b] ++ GxEPD2_EPD.csWrite s .HIGH,
      pinSafe s e :=
  allSafe_append s _ _ (allSafe_append s _ _ (pinSafe_csWrite s _) (pinSafe_transfer s b))
    (pinSafe_csWrite s _)

theorem pinSafe_reset (s : GxEPD2_EPD) : ∀ e ∈ (GxEPD2_EPD._reset s).2, pinSafe s e := by
  unfold GxEPD2_EPD._reset
  by_cases hrst : s._rst ≥ 0
  · have hsafe : ∀ e : Event, e.pin? = some s._rst → pinSafe s e := fun e h =>
      pinSafe_of_pin s e _ h hrst (Or.inr (Or.inr (Or.inl rfl)))
    by_cases hpd : s._pulldown_rst_mode
    · simp only [hrst, hpd, if_true]
      repeat' first
        | exact allSafe_nil s
        | refine allSafe_cons s _ _ ?_ ?_
        | exact hsafe _ rfl
        | exact pinSafe_of_pin_none s _ rfl
    · simp only [hrst, hpd, if_true, if_false]
      repeat' first
        | exact allSafe_nil s
        | refine allSafe_cons s _ _ ?_ ?_
        | exact hsafe _ rfl
        | exact pinSafe_of_pin_none s _ rfl
  · simp only [hrst, if_false]
    exact allSafe_nil s

/-- The events of `init`, in terms of the fields of the object it is called on. -/
theorem init_events (s : GxEPD2_EPD) (b : Nat) (i pd : Bool) :
    (GxEPD2_EPD.init s b i pd).2
      = (if b > 0 then [Event.serialBegin b] else [])
        ++ (if s._cs ≥ 0 then [Event.digitalWrite s._cs .HIGH, Event.pinMode s._cs .OUTPUT] else [])
        ++ (if s._dc ≥ 0 then [Event.digitalWrite s._dc .HIGH, Event.pinMode s._dc .OUTPUT] else [])
        ++ (GxEPD2_EPD._reset { s with _pulldown_rst_mode := pd }).2
        ++ (if s._busy ≥ 0 then [Event.pinMode s._busy .INPUT] else [])
        ++ [Event.spiBegin] := by
  unfold GxEPD2_EPD.init GxEPD2_EPD._reset
  by_cases hb : b > 0 <;> by_cases hr : s._rst ≥ 0 <;> simp [hb, hr]

theorem pinSafe_init (s : GxEPD2_EPD) (b : Nat) (i pd : Bool) :
    ∀ e ∈ (GxEPD2_EPD.init s b i pd).2, pinSafe s e := by
  rw [init_events]
  have hreset : ∀ e ∈ (GxEPD2_EPD._reset { s with _pulldown_rst_mode := pd }).2, pinSafe s e :=
    fun e he pin hp => pinSafe_reset { s with _pulldown_rst_mode := pd } e he pin hp
  refine allSafe_append s _ _ (allSafe_append s _ _ (allSafe_append s _ _
    (allSafe_append s _ _ (allSafe_append s _ _ ?_ ?_) ?_) hreset) ?_)
    (allSafe_cons s _ _ (pinSafe_of_pin_none s _ rfl) (allSafe_nil s))
  · split
    · exact allSafe_cons s _ _ (pinSafe_of_pin_none s _ rfl) (allSafe_nil s)
    · exact allSafe_nil s
  · split
    · rename_i h
      exact allSafe_cons s _ _ (pinSafe_of_pin s _ _ rfl h (Or.inl rfl))
        (allSafe_cons s _ _ (pinSafe_of_pin s _ _ rfl h (Or.inl rfl)) (allSafe_nil s))
    · exact allSafe_nil s
  · split
    · rename_i h
      exact allSafe_cons s _ _ (pinSafe_of_pin s _ _ rfl h (Or.inr (Or.inl rfl)))
        (allSafe_cons s _ _ (pinSafe_of_pin s _ _ rfl h (Or.inr (Or.inl rfl))) (allSafe_nil s))
    · exact allSafe_nil s
  · split
    · rename_i h
      exact allSafe_cons s _ _ (pinSafe_of_pin s _ _ rfl h (Or.inr (Or.inr (Or.inr rfl))))
        (allSafe_nil s)
    · exact allSafe_nil s

theorem pinSafe_end (s : GxEPD2_EPD) : ∀ e ∈ GxEPD2_EPD.end_ s, pinSafe s e := by
  unfold GxEPD2_EPD.end_
  refine allSafe_append s _ _ (allSafe_append s _ _ (allSafe_append s _ _
    (allSafe_cons s _ _ (pinSafe_of_pin_none s _ rfl) (allSafe_nil s)) ?_) ?_) ?_
  · split
    · rename_i h
      exact allSafe_cons s _ _ (pinSafe_of_pin s _ _ rfl h (Or.inl rfl)) (allSafe_nil s)
    · exact allSafe_nil s
  · split
    · rename_i h
      exact allSafe_cons s _ _ (pinSafe_of_pin s _ _ rfl h (Or.inr (Or.inl rfl))) (allSafe_nil s)
    · exact allSafe_nil s
  · split
    · rename_i h
      exact allSafe_cons s _ _ (pinSafe_of_pin s _ _ rfl h (Or.inr (Or.inr (Or.inl rfl))))
        (allSafe_nil s)
    · exact allSafe_nil s

theorem pinSafe_waitWhileBusy (s : GxEPD2_EPD) (env : Env) (comment : Option String)
    (busy_time fuel : Nat) :
    TraceOK (pinSafe s) (GxEPD2_EPD._waitWhileBusy s env comment busy_time fuel) := by
  unfold GxEPD2_EPD._waitWhileBusy
  refine TraceOK.ite (fun hb => ?_) (fun _ => ?_)
  · refine TraceOK.bind ?_ fun _ => TraceOK.bind ?_ fun _ =>
      TraceOK.bind (TraceOK.busyLoop s env _ hb fuel 0 1) fun r => ?_
    · exact allSafe_cons s _ _ (pinSafe_of_pin_none s _ rfl) (allSafe_nil s)
    · exact allSafe_cons s _ _ (pinSafe_of_pin_none s _ rfl) (allSafe_nil s)
    · obtain ⟨s1, nt⟩ := r
      cases comment with
      | none =>
        dsimp only
        exact TraceOK.bind (TraceOK.pure _) fun _ => TraceOK.pure _
      | some text =>
        dsimp only
        refine TraceOK.ite (fun _ => ?_) (fun _ => ?_)
        · refine TraceOK.bind ?_ fun _ => TraceOK.pure _
          repeat' first
            | exact allSafe_nil s
            | refine allSafe_cons s _ _ (pinSafe_of_pin_none s _ rfl) ?_
        · exact TraceOK.bind (TraceOK.pure _) fun _ => TraceOK.pure _
  · exact TraceOK.bind (allSafe_cons s _ _ (pinSafe_of_pin_none s _ rfl) (allSafe_nil s))
      fun _ => TraceOK.pure _

/-- Without a busy callback, no event of the polling loop is a callback: every wait
between two pin reads is a `delay(1)`. -/
theorem busyLoop_no_callback (s : GxEPD2_EPD) (env : Env) (start : Nat)
    (hcb : s._busy_callback = false) :
    ∀ fuel nr nt : Nat,
      TraceOK (fun e => e ≠ Event.busyCallback) (GxEPD2_EPD.busyLoop s env start fuel nr nt) := by
  intro fuel
  induction fuel with
  | zero => intro nr nt e he; simp [GxEPD2_EPD.busyLoop] at he
  | succ fuel ih =>
    intro nr nt e he
    unfold GxEPD2_EPD.busyLoop at he
    simp only [hcb] at he
    split at he
    · simp only [List.mem_singleton] at he
      subst he
      simp
    · split at he
      · simp only [List.mem_cons, List.mem_singleton, List.not_mem_nil, or_false] at he
        rcases he with h | h | h <;> subst h <;> simp
      · split at he
        · simp only [List.mem_cons, List.mem_singleton, List.not_mem_nil, or_false] at he
          rcases he with h | h | h | h <;> subst h <;> simp
        · rcases List.mem_append.mp he with h | h
          · simp only [List.mem_cons, List.mem_singleton, List.not_mem_nil, or_false] at h
            rcases h with h | h | h | h <;> subst h <;> simp
          · exact ih _ _ e h

theorem waitWhileBusy_no_callback (s : GxEPD2_EPD) (env : Env) (comment : Option String)
    (busy_time fuel : Nat) (hcb : s._busy_callback = false) :
    TraceOK (fun e => e ≠ Event.busyCallback)
      (GxEPD2_EPD._waitWhileBusy s env comment busy_time fuel) := by
  have hlist : ∀ l : List Event, Event.busyCallback ∉ l →
      ∀ e ∈ l, e ≠ Event.busyCallback := fun l hl e he h => hl (h ▸ he)
  unfold GxEPD2_EPD._waitWhileBusy
  refine TraceOK.ite (fun _ => ?_) (fun _ => ?_)
  · refine TraceOK.bind ?_ fun _ => TraceOK.bind ?_ fun _ =>
      TraceOK.bind (busyLoop_no_callback s env _ hcb fuel 0 1) fun r => ?_
    · exact TraceOK.emit _ (hlist _ (by simp))
    · exact TraceOK.emit _ (hlist _ (by simp))
    · obtain ⟨s1, nt⟩ := r
      cases comment with
      | none =>
        dsimp only
        exact TraceOK.bind (TraceOK.pure _) fun _ => TraceOK.pure _
      | some text =>
        dsimp only
        refine TraceOK.ite (fun _ => ?_) (fun _ => ?_)
        · exact TraceOK.bind (TraceOK.emit _ (hlist _ (by simp))) fun _ => TraceOK.pure _
        · exact TraceOK.bind (TraceOK.pure _) fun _ => TraceOK.pure _
  · exact TraceOK.bind (TraceOK.emit _ (hlist _ (by simp))) fun _ => TraceOK.pure _

/-- C2, amended: with `_busy >= 0` and no busy callback installed (so that every wait of
the loop is a `delay(1)`), if between two consecutive readings of the microsecond clock
the clock advances by at least 1000 and at most `D`, and `_busy_timeout + D < 2^32`, then
for every sequence of pin reads `_waitWhileBusy` returns within `_busy_timeout / 1000 + 1`
iterations of its loop; and if the busy line stays at `_busy_level` forever it returns
with `_timeout_expired` set to true and no other field changed. -/
theorem waitWhileBusy_times_out (s : GxEPD2_EPD) (env : Env) (comment : Option String)
    (busy_time D : Nat) (hb : 0 ≤ s._busy) (hcb : s._busy_callback = false)
    (hstep : ∀ k, env.clock k + 1000 ≤ env.clock (k + 1) ∧ env.clock (k + 1) ≤ env.clock k + D)
    (hT : s._busy_timeout + D < U32) (fuel : Nat) (hf : s._busy_timeout / 1000 < fuel) :
    (∃ s1, (GxEPD2_EPD._waitWhileBusy s env comment busy_time fuel).result = some s1)
      ∧ Event.busyCallback ∉ (GxEPD2_EPD._waitWhileBusy s env comment busy_time fuel).trace
      ∧ ((∀ k, env.pinRead k = s._busy_level) →
          (GxEPD2_EPD._waitWhileBusy s env comment busy_time fuel).result
            = some { s with _timeout_expired := true }) := by
  refine ⟨?_, ?_, ?_⟩
  · obtain ⟨r, h⟩ := busyLoop_terminates s env D hstep hT fuel 0 0 (by simp) (by simpa using hf)
    rw [waitWhileBusy_result s env comment busy_time fuel hb, h]
    exact ⟨r.1, rfl⟩
  · intro hmem
    exact waitWhileBusy_no_callback s env comment busy_time fuel hcb _ hmem rfl
  · intro hbusy
    obtain ⟨nt1, h⟩ := busyLoop_times_out s env D hstep hT hbusy fuel 0 0 (by simp)
      (by simpa using hf)
    rw [waitWhileBusy_result s env comment busy_time fuel hb, h]
    rfl

theorem waitWhileBusy_times_out_witness :
    ((0 ≤ sample._busy ∧ sample._busy_callback = false
        ∧ (∀ k, steadyBusy.clock k + 1000 ≤ steadyBusy.clock (k + 1)
            ∧ steadyBusy.clock (k + 1) ≤ steadyBusy.clock k + 1000)
        ∧ sample._busy_timeout + 1000 < U32
        ∧ sample._busy_timeout / 1000 < 4
        ∧ (∀ k, steadyBusy.pinRead k = sample._busy_level))
      ∧ (GxEPD2_EPD._waitWhileBusy sample steadyBusy none 0 4).result
          = some { sample with _timeout_expired := true })
    ∧ ((∀ k, releasedBusy.clock k + 1000 ≤ releasedBusy.clock (k + 1)
            ∧ releasedBusy.clock (k + 1) ≤ releasedBusy.clock k + 1000)
      ∧ (GxEPD2_EPD._waitWhileBusy sample releasedBusy none 0 4).result = some sample
      ∧ ∃ s1, (GxEPD2_EPD._waitWhileBusy sample releasedBusy none 0 4).result = some s1) :=
  have hstep : ∀ k, 1000 * k + 1000 ≤ 1000 * (k + 1) ∧ 1000 * (k + 1) ≤ 1000 * k + 1000 :=
    fun k => by omega
  ⟨⟨⟨by decide, rfl, hstep, by decide, by decide, fun _ => rfl⟩,
      (waitWhileBusy_times_out sample steadyBusy none 0 1000 (by decide) rfl hstep (by decide)
        4 (by decide)).2.2 (fun _ => rfl)⟩,
    ⟨hstep, by decide,
      (waitWhileBusy_times_out sample releasedBusy none 0 1000 (by decide) rfl hstep
        (by decide) 4 (by decide)).1⟩⟩

theorem pinSafe_writeCommand (s : GxEPD2_EPD) (c : Byte) :
    TraceOK (pinSafe s) (GxEPD2_EPD._writeCommand s c) := by
  unfold GxEPD2_EPD._writeCommand
  repeat' first
    | refine TraceOK.bind ?_ (fun _ => ?_)
    | refine TraceOK.ite (fun _ => ?_) (fun _ => ?_)
    | exact TraceOK.pure _
    | exact allSafe_cons s _ _ (pinSafe_of_pin_none s _ rfl) (allSafe_nil s)
    | exact allSafe_cons s _ _ (pinSafe_of_pin s _ _ rfl (by assumption) (Or.inl rfl))
        (allSafe_nil s)
    | exact allSafe_cons s _ _ (pinSafe_of_pin s _ _ rfl (by assumption) (Or.inr (Or.inl rfl)))
        (allSafe_nil s)

theorem pinSafe_writeData (s : GxEPD2_EPD) (d : Byte) :
    TraceOK (pinSafe s) (GxEPD2_EPD._writeData s d) := by
  unfold GxEPD2_EPD._writeData
  repeat' first
    | refine TraceOK.bind ?_ (fun _ => ?_)
    | refine TraceOK.ite (fun _ => ?_) (fun _ => ?_)
    | exact TraceOK.pure _
    | exact allSafe_cons s _ _ (pinSafe_of_pin_none s _ rfl) (allSafe_nil s)
    | exact allSafe_cons s _ _ (pinSafe_of_pin s _ _ rfl (by assumption) (Or.inl rfl))
        (allSafe_nil s)

theorem pinSafe_writeData_n (s : GxEPD2_EPD) (data : Nat → Byte) (n fuel : Nat) :
    TraceOK (pinSafe s) (GxEPD2_EPD._writeData_n s data n fuel) := by
  unfold GxEPD2_EPD._writeData_n
  repeat' first
    | refine TraceOK.bind ?_ (fun _ => ?_)
    | refine TraceOK.ite (fun _ => ?_) (fun _ => ?_)
    | exact TraceOK.pure _
    | exact TraceOK.forLoop _ _ _ (fun _ => pinSafe_transfer s _) _ _ _
    | exact allSafe_cons s _ _ (pinSafe_of_pin_none s _ rfl) (allSafe_nil s)
    | exact allSafe_cons s _ _ (pinSafe_of_pin s _ _ rfl (by assumption) (Or.inl rfl))
        (allSafe_nil s)

theorem pinSafe_writeDataPGM (s : GxEPD2_EPD) (data : Nat → Byte) (n : Nat) (f : Int) (fuel : Nat) :
    TraceOK (pinSafe s) (GxEPD2_EPD._writeDataPGM s data n f fuel) := by
  unfold GxEPD2_EPD._writeDataPGM
  repeat' first
    | refine TraceOK.bind ?_ (fun _ => ?_)
    | refine TraceOK.ite (fun _ => ?_) (fun _ => ?_)
    | exact TraceOK.pure _
    | exact TraceOK.forLoop _ _ _ (fun _ => pinSafe_transfer s _) _ _ _
    | exact TraceOK.fillLoop _ (pinSafe_transfer s _) _ _
    | exact allSafe_cons s _ _ (pinSafe_of_pin_none s _ rfl) (allSafe_nil s)
    | exact allSafe_cons s _ _ (pinSafe_of_pin s _ _ rfl (by assumption) (Or.inl rfl))
        (allSafe_nil s)

theorem pinSafe_writeDataPGM_sCS (s : GxEPD2_EPD) (data : Nat → Byte) (n : Nat) (f : Int) (fuel : Nat) :
    TraceOK (pinSafe s) (GxEPD2_EPD._writeDataPGM_sCS s data n f fuel) := by
  unfold GxEPD2_EPD._writeDataPGM_sCS
  repeat' first
    | refine TraceOK.bind ?_ (fun _ => ?_)
    | refine TraceOK.ite (fun _ => ?_) (fun _ => ?_)
    | exact TraceOK.pure _
    | exact TraceOK.forLoop _ _ _ (fun _ => pinSafe_bracket s _) _ _ _
    | exact TraceOK.fillLoop _ (pinSafe_bracket s _) _ _
    | exact allSafe_cons s _ _ (pinSafe_of_pin_none s _ rfl) (allSafe_nil s)

theorem pinSafe_writeCommandData (s : GxEPD2_EPD) (p : Nat → Byte) (datalen fuel : Nat) :
    TraceOK (pinSafe s) (GxEPD2_EPD._writeCommandData s p datalen fuel) := by
  unfold GxEPD2_EPD._writeCommandData
  repeat' first
    | refine TraceOK.bind ?_ (fun _ => ?_)
    | refine TraceOK.ite (fun _ => ?_) (fun _ => ?_)
    | exact TraceOK.pure _
    | exact TraceOK.forLoop _ _ _ (fun _ => pinSafe_transfer s _) _ _ _
    | exact allSafe_cons s _ _ (pinSafe_of_pin_none s _ rfl) (allSafe_nil s)
    | exact allSafe_cons s _ _ (pinSafe_of_pin s _ _ rfl (by assumption) (Or.inl rfl))
        (allSafe_nil s)
    | exact allSafe_cons s _ _ (pinSafe_of_pin s _ _ rfl (by assumption) (Or.inr (Or.inl rfl)))
        (allSafe_nil s)

theorem pinSafe_writeCommandDataPGM (s : GxEPD2_EPD) (p : Nat → Byte) (datalen fuel : Nat) :
    TraceOK (pinSafe s) (GxEPD2_EPD._writeCommandDataPGM s p datalen fuel) := by
  unfold GxEPD2_EPD._writeCommandDataPGM
  repeat' first
    | refine TraceOK.bind ?_ (fun _ => ?_)
    | refine TraceOK.ite (fun _ => ?_) (fun _ => ?_)
    | exact TraceOK.pure _
    | exact TraceOK.forLoop _ _ _ (fun _ => pinSafe_transfer s _) _ _ _
    | exact allSafe_cons s _ _ (pinSafe_of_pin_none s _ rfl) (allSafe_nil s)
    | exact allSafe_cons s _ _ (pinSafe_of_pin s _ _ rfl (by assumption) (Or.inl rfl))
        (allSafe_nil s)
    | exact allSafe_cons s _ _ (pinSafe_of_pin s _ _ rfl (by assumption) (Or.inr (Or.inl rfl)))
        (allSafe_nil s)

theorem pinSafe_startTransfer (s : GxEPD2_EPD)  :
    TraceOK (pinSafe s) (GxEPD2_EPD._startTransfer s) := by
  unfold GxEPD2_EPD._startTransfer
  repeat' first
    | refine TraceOK.bind ?_ (fun _ => ?_)
    | refine TraceOK.ite (fun _ => ?_) (fun _ => ?_)
    | exact TraceOK.pure _
    | exact allSafe_cons s _ _ (pinSafe_of_pin_none s _ rfl) (allSafe_nil s)
    | exact allSafe_cons s _ _ (pinSafe_of_pin s _ _ rfl (by assumption) (Or.inl rfl))
        (allSafe_nil s)

theorem pinSafe_endTransfer (s : GxEPD2_EPD)  :
    TraceOK (pinSafe s) (GxEPD2_EPD._endTransfer s) := by
  unfold GxEPD2_EPD._endTransfer
  repeat' first
    | refine TraceOK.bind ?_ (fun _ => ?_)
    | refine TraceOK.ite (fun _ => ?_) (fun _ => ?_)
    | exact TraceOK.pure _
    | exact allSafe_cons s _ _ (pinSafe_of_pin_none s _ rfl) (allSafe_nil s)
    | exact allSafe_cons s _ _ (pinSafe_of_pin s _ _ rfl (by assumption) (Or.inl rfl))
        (allSafe_nil s)

/-- C9: for every operation of the driver, every configuration of `_cs`, `_dc`, `_rst`,
`_busy` (and of every other field), every argument and every number of loop iterations,
each `digitalWrite`, `pinMode` and `digitalRead` issued has a pin number that is not
negative and is the number of one of the four configured pins. -/
theorem pins_never_negative (s : GxEPD2_EPD) (op : Op) (fuel : Nat) (e : Event)
    (he : e ∈ op.events s fuel) (pin : Int) (hp : e.pin? = some pin) :
    0 ≤ pin ∧ (pin = s._cs ∨ pin = s._dc ∨ pin = s._rst ∨ pin = s._busy) := by
  suffices h : ∀ e ∈ op.events s fuel, pinSafe s e from h e he pin hp
  cases op with
  | init b i pd => exact pinSafe_init s b i pd
  | init1 b => exact pinSafe_init s b true false
  | end_ => exact pinSafe_end s
  | _reset => exact pinSafe_reset s
  | _waitWhileBusy env comment busy_time =>
    exact pinSafe_waitWhileBusy s env comment busy_time fuel
  | _writeCommand c => exact pinSafe_writeCommand s c
  | _writeData d => exact pinSafe_writeData s d
  | _writeData_n data n => exact pinSafe_writeData_n s data n fuel
  | _writeDataPGM data n f => exact pinSafe_writeDataPGM s data n f fuel
  | _writeDataPGM_sCS data n f => exact pinSafe_writeDataPGM_sCS s data n f fuel
  | _writeCommandData p datalen => exact pinSafe_writeCommandData s p datalen fuel
  | _writeCommandDataPGM p datalen => exact pinSafe_writeCommandDataPGM s p datalen fuel
  | _startTransfer => exact pinSafe_startTransfer s
  | _transfer value => exact pinSafe_transfer s value
  | _endTransfer => exact pinSafe_endTransfer s

theorem pins_never_negative_witness :
    (Event.digitalWrite 5 .HIGH ∈ (Op.init 0 true false).events sample 0
        ∧ (Event.digitalWrite 5 .HIGH).pin? = some 5)
      ∧ ((0 : Int) ≤ 5 ∧ ((5 : Int) = sample._cs ∨ (5 : Int) = sample._dc
          ∨ (5 : Int) = sample._rst ∨ (5 : Int) = sample._busy)) :=
  ⟨⟨by decide, rfl⟩,
    pins_never_negative sample (Op.init 0 true false) 0 (Event.digitalWrite 5 .HIGH)
      (by decide) 5 rfl⟩

/-! ## Streaming interface and transaction framing -/

theorem levelAfter_framing (pin : Int) (v : Level) (mid : List Event) :
    levelAfter pin v (Event.beginTransaction :: (mid ++ [Event.endTransaction]))
      = levelAfter pin v mid := by
  simp [levelAfter, levelAfter_append]

theorem mem_framing (e : Event) (mid : List Event) (hb : e ≠ Event.beginTransaction)
    (he : e ≠ Event.endTransaction)
    (h : e ∈ Event.beginTransaction :: (mid ++ [Event.endTransaction])) : e ∈ mid := by
  simp only [List.mem_cons, List.mem_append, List.not_mem_nil, or_false] at h
  rcases h with h | h | h
  · exact absurd h hb
  · exact h
  · exact absurd h he

theorem wellFramed_of_mid (s : GxEPD2_EPD) (mid : List Event) (hno : NoFraming mid)
    (hidle : 0 ≤ s._cs → levelAfter s._cs .HIGH mid = .HIGH)
    (hany : 0 ≤ s._cs → (∃ w : Level, Event.digitalWrite s._cs w ∈ mid) →
      ∀ v : Level, levelAfter s._cs v mid = .HIGH) :
    WellFramed s (Event.beginTransaction :: (mid ++ [Event.endTransaction])) := by
  obtain ⟨hb, he⟩ := hno
  refine ⟨?_, ?_, rfl, ?_, ?_, ?_⟩
  · simp [List.count_cons, List.count_append, List.count_eq_zero.mpr hb]
  · simp [List.count_cons, List.count_append, List.count_eq_zero.mpr he]
  · rw [← List.singleton_append, ← List.append_assoc, List.getLast?_append]
    rfl
  · intro hcs
    rw [levelAfter_framing]
    exact hidle hcs
  · intro hcs hw v
    rw [levelAfter_framing]
    obtain ⟨w, hw⟩ := hw
    exact hany hcs ⟨w, mem_framing _ mid (by simp) (by simp) hw⟩ v

theorem noFraming_append (a b : List Event) (ha : NoFraming a) (hb : NoFraming b) :
    NoFraming (a ++ b) := by
  unfold NoFraming at *
  simp only [List.mem_append, not_or]
  exact ⟨⟨ha.1, hb.1⟩, ⟨ha.2, hb.2⟩⟩

theorem noFraming_csWrite (s : GxEPD2_EPD) (v : Level) : NoFraming (GxEPD2_EPD.csWrite s v) := by
  unfold NoFraming GxEPD2_EPD.csWrite
  split <;> simp

theorem noFraming_dcWrite (s : GxEPD2_EPD) (v : Level) : NoFraming (GxEPD2_EPD.dcWrite s v) := by
  unfold NoFraming GxEPD2_EPD.dcWrite
  split <;> simp

theorem noFraming_transfers {α : Type} (f : α → Byte) (l : List α) :
    NoFraming (l.map (fun i => Event.transfer (f i))) := by
  unfold NoFraming
  simp

theorem noFraming_brackets {α : Type} (s : GxEPD2_EPD) (f : α → Byte) (l : List α) :
    NoFraming (l.flatMap (fun i =>
      GxEPD2_EPD.csWrite s .LOW ++ [Event.transfer (f i)] ++ GxEPD2_EPD.csWrite s .HIGH)) := by
  unfold NoFraming GxEPD2_EPD.csWrite
  by_cases hcs : s._cs ≥ 0 <;> simp [hcs, List.mem_flatMap]

/-- After any events followed by `digitalWrite(_cs, HIGH)`, CS is HIGH. -/
theorem levelAfter_then_csHigh (s : GxEPD2_EPD) (hcs : 0 ≤ s._cs) (v : Level) (pre : List Event) :
    levelAfter s._cs v (pre ++ GxEPD2_EPD.csWrite s .HIGH) = .HIGH := by
  rw [levelAfter_append]
  simp [GxEPD2_EPD.csWrite, hcs, levelAfter]

/-- CS after a sequence of per-byte CS brackets: HIGH unless the sequence is empty. -/
theorem levelAfter_brackets {α : Type} (s : GxEPD2_EPD) (hcs : 0 ≤ s._cs) (f : α → Byte)
    (l : List α) (v : Level) :
    levelAfter s._cs v (l.flatMap (fun i =>
      GxEPD2_EPD.csWrite s .LOW ++ [Event.transfer (f i)] ++ GxEPD2_EPD.csWrite s .HIGH))
      = if l.isEmpty then v else .HIGH := by
  induction l generalizing v with
  | nil => rfl
  | cons a l ih =>
    rw [List.flatMap_cons, levelAfter_append, ih]
    cases l <;> simp [GxEPD2_EPD.csWrite, hcs, levelAfter]

theorem framedRun_of_mid (s : GxEPD2_EPD) (r : Run Unit) (mid : List Event)
    (hr : r = ⟨Event.beginTransaction :: (mid ++ [Event.endTransaction]), some ()⟩)
    (hno : NoFraming mid)
    (hany : 0 ≤ s._cs → ∀ v : Level, levelAfter s._cs v mid = .HIGH) :
    FramedRun s r := by
  rw [hr]
  exact ⟨rfl, wellFramed_of_mid s mid hno (fun h => hany h _) (fun h _ v => hany h v)⟩

theorem transferEach_run (s : GxEPD2_EPD) (bytes : List Byte) :
    transferEach s bytes = ⟨bytes.map Event.transfer, some ()⟩ := by
  induction bytes with
  | nil => rfl
  | cons b bs ih =>
    rw [transferEach, ih]
    rfl

theorem streamed_run (s : GxEPD2_EPD) (bytes : List Byte) :
    streamed s bytes
      = ⟨[Event.beginTransaction] ++ GxEPD2_EPD.csWrite s .LOW ++ bytes.map Event.transfer
          ++ GxEPD2_EPD.csWrite s .HIGH ++ [Event.endTransaction], some ()⟩ := by
  unfold streamed GxEPD2_EPD._startTransfer GxEPD2_EPD._endTransfer
  rw [transferEach_run]
  by_cases hcs : s._cs ≥ 0 <;>
    simp [Run.bind_eq, Run.pure_eq, emit, GxEPD2_EPD.csWrite, hcs]

theorem writeCommand_run (s : GxEPD2_EPD) (c : Byte) :
    GxEPD2_EPD._writeCommand s c
      = ⟨[Event.beginTransaction] ++ GxEPD2_EPD.dcWrite s .LOW ++ GxEPD2_EPD.csWrite s .LOW
          ++ [Event.transfer c] ++ GxEPD2_EPD.csWrite s .HIGH ++ GxEPD2_EPD.dcWrite s .HIGH
          ++ [Event.endTransaction], some ()⟩ := by
  unfold GxEPD2_EPD._writeCommand
  by_cases hcs : s._cs ≥ 0 <;> by_cases hdc : s._dc ≥ 0 <;>
    simp [Run.bind_eq, Run.pure_eq, emit, GxEPD2_EPD.csWrite, GxEPD2_EPD.dcWrite, hcs, hdc]

theorem writeData_run (s : GxEPD2_EPD) (d : Byte) :
    GxEPD2_EPD._writeData s d
      = ⟨[Event.beginTransaction] ++ GxEPD2_EPD.csWrite s .LOW ++ [Event.transfer d]
          ++ GxEPD2_EPD.csWrite s .HIGH ++ [Event.endTransaction], some ()⟩ := by
  unfold GxEPD2_EPD._writeData
  by_cases hcs : s._cs ≥ 0 <;>
    simp [Run.bind_eq, Run.pure_eq, emit, GxEPD2_EPD.csWrite, hcs]

theorem noFraming_single (b : Byte) : NoFraming [Event.transfer b] := by
  unfold NoFraming
  simp

theorem framed_writeCommand (s : GxEPD2_EPD) (c : Byte) :
    FramedRun s (GxEPD2_EPD._writeCommand s c) := by
  refine framedRun_of_mid s _ (GxEPD2_EPD.dcWrite s .LOW ++ GxEPD2_EPD.csWrite s .LOW
    ++ [Event.transfer c] ++ GxEPD2_EPD.csWrite s .HIGH ++ GxEPD2_EPD.dcWrite s .HIGH) ?_ ?_ ?_
  · rw [writeCommand_run]
    simp [List.append_assoc]
  · exact noFraming_append _ _ (noFraming_append _ _ (noFraming_append _ _
      (noFraming_append _ _ (noFraming_dcWrite s _) (noFraming_csWrite s _))
      (noFraming_single c)) (noFraming_csWrite s _)) (noFraming_dcWrite s _)
  · intro hcs v
    rw [levelAfter_append, levelAfter_then_csHigh s hcs]
    unfold GxEPD2_EPD.dcWrite
    split
    · simp [levelAfter]
    · rfl

theorem framed_writeData (s : GxEPD2_EPD) (d : Byte) :
    FramedRun s (GxEPD2_EPD._writeData s d) := by
  refine framedRun_of_mid s _ (GxEPD2_EPD.csWrite s .LOW ++ [Event.transfer d]
    ++ GxEPD2_EPD.csWrite s .HIGH) ?_ ?_ ?_
  · rw [writeData_run]
    simp [List.append_assoc]
  · exact noFraming_append _ _ (noFraming_append _ _ (noFraming_csWrite s _)
      (noFraming_single d)) (noFraming_csWrite s _)
  · intro hcs v
    exact levelAfter_then_csHigh s hcs v _

theorem framed_writeData_n (s : GxEPD2_EPD) (data : Nat → Byte) (n fuel : Nat)
    (hn : n < 65536) (hf : n < fuel) :
    FramedRun s (GxEPD2_EPD._writeData_n s data n fuel) := by
  refine framedRun_of_mid s _ (GxEPD2_EPD.csWrite s .LOW
    ++ (List.range n).map (fun i => Event.transfer (data i))
    ++ GxEPD2_EPD.csWrite s .HIGH) ?_ ?_ ?_
  · rw [writeData_n_run s data n fuel hn hf]
    simp [List.append_assoc]
  · exact noFraming_append _ _ (noFraming_append _ _ (noFraming_csWrite s _)
      (noFraming_transfers data _)) (noFraming_csWrite s _)
  · intro hcs v
    exact levelAfter_then_csHigh s hcs v _

theorem framed_writeDataPGM (s : GxEPD2_EPD) (data : Nat → Byte) (n : Nat) (fill : Int)
    (fuel : Nat) (hn : n < 65536) (hf : n < fuel) (hz : fill.toNat < fuel) :
    FramedRun s (GxEPD2_EPD._writeDataPGM s data n fill fuel) := by
  refine framedRun_of_mid s _ (GxEPD2_EPD.csWrite s .LOW
    ++ (List.range n).map (fun i => Event.transfer (data i))
    ++ (List.range fill.toNat).map (fun _ => Event.transfer 0)
    ++ GxEPD2_EPD.csWrite s .HIGH) ?_ ?_ ?_
  · rw [writeDataPGM_run s data n fill fuel hn hf hz]
    simp [List.append_assoc]
  · exact noFraming_append _ _ (noFraming_append _ _ (noFraming_append _ _
      (noFraming_csWrite s _) (noFraming_transfers data _))
      (noFraming_transfers (fun _ => 0) _)) (noFraming_csWrite s _)
  · intro hcs v
    exact levelAfter_then_csHigh s hcs v _

theorem framed_writeCommandData (s : GxEPD2_EPD) (p : Nat → Byte) (datalen fuel : Nat)
    (hd : datalen < 256) (hf : datalen < fuel) :
    FramedRun s (GxEPD2_EPD._writeCommandData s p datalen fuel) := by
  refine framedRun_of_mid s _ (GxEPD2_EPD.dcWrite s .LOW ++ GxEPD2_EPD.csWrite s .LOW
    ++ [Event.transfer (p 0)] ++ GxEPD2_EPD.dcWrite s .HIGH
    ++ (List.range (datalen - 1)).map (fun j => Event.transfer (p (1 + j)))
    ++ GxEPD2_EPD.csWrite s .HIGH) ?_ ?_ ?_
  · rw [writeCommandData_run s p datalen fuel hd hf]
    simp [List.append_assoc]
  · exact noFraming_append _ _ (noFraming_append _ _ (noFraming_append _ _
      (noFraming_append _ _ (noFraming_append _ _ (noFraming_dcWrite s _)
      (noFraming_csWrite s _)) (noFraming_single _)) (noFraming_dcWrite s _))
      (noFraming_transfers (fun j => p (1 + j)) _)) (noFraming_csWrite s _)
  · intro hcs v
    exact levelAfter_then_csHigh s hcs v _

theorem framed_streamed (s : GxEPD2_EPD) (bytes : List Byte) : FramedRun s (streamed s bytes) := by
  refine framedRun_of_mid s _ (GxEPD2_EPD.csWrite s .LOW ++ bytes.map Event.transfer
    ++ GxEPD2_EPD.csWrite s .HIGH) ?_ ?_ ?_
  · rw [streamed_run]
    simp [List.append_assoc]
  · exact noFraming_append _ _ (noFraming_append _ _ (noFraming_csWrite s _)
      (noFraming_transfers id _)) (noFraming_csWrite s _)
  · intro hcs v
    exact levelAfter_then_csHigh s hcs v _

theorem framed_writeDataPGM_sCS (s : GxEPD2_EPD) (data : Nat → Byte) (n : Nat) (fill : Int)
    (fuel : Nat) (hn : n ≤ 255) (hf : n < fuel) (hz : fill.toNat < fuel) :
    FramedRun s (GxEPD2_EPD._writeDataPGM_sCS s data n fill fuel) := by
  rw [writeDataPGM_sCS_run s data n fill fuel (by omega) hf hz]
  refine ⟨rfl, ?_⟩
  have hform : ∀ a b : List Event, [Event.beginTransaction] ++ a ++ b ++ [Event.endTransaction]
      = Event.beginTransaction :: ((a ++ b) ++ [Event.endTransaction]) := by
    intro a b
    simp [List.append_assoc]
  rw [hform]
  refine wellFramed_of_mid s _ (noFraming_append _ _ (noFraming_brackets s data _)
    (noFraming_brackets s (fun _ => 0) _)) ?_ ?_
  · intro hcs
    rw [levelAfter_append, levelAfter_brackets s hcs, levelAfter_brackets s hcs]
    split
    · split <;> rfl
    · rfl
  · intro hcs hw v
    rw [levelAfter_append, levelAfter_brackets s hcs, levelAfter_brackets s hcs]
    obtain ⟨w, hw⟩ := hw
    cases hA : List.range n with
    | cons a l => cases hB : List.range fill.toNat <;> simp
    | nil =>
      cases hB : List.range fill.toNat with
      | cons a l => simp
      | nil => simp [hA, hB] at hw

/-- C10: for every buffer and every `n` in 0..65535 the events of `_startTransfer()`,
`_transfer(data[i])` for i = 0..n-1, `_endTransfer()` are the events of
`_writeData(data, n)`; and each write operation (`_writeCommand`, both `_writeData`,
`_writeDataPGM`, `_writeDataPGM_sCS` for `m <= 255`, `_writeCommandData`,
`_writeCommandDataPGM`, and a `_startTransfer` ... `_endTransfer` pair around any
transfers) returns with exactly one `beginTransaction`, as its first event, exactly one
`endTransaction`, as its last event, and CS HIGH at the end (from the idle level HIGH
always, and from any level whenever the operation writes CS at all, which all of them
do except `_writeDataPGM_sCS` with nothing to send). -/
theorem streaming_equals_buffered (s : GxEPD2_EPD) (data p : Nat → Byte) (c d : Byte)
    (bytes : List Byte) (n m datalen : Nat) (fill : Int) (fuel : Nat)
    (hn : n < 65536) (hm : m ≤ 255) (hd : datalen < 256)
    (hf : n < fuel ∧ m < fuel ∧ datalen < fuel ∧ fill.toNat < fuel) :
    streamed s ((List.range n).map data) = GxEPD2_EPD._writeData_n s data n fuel
      ∧ FramedRun s (GxEPD2_EPD._writeCommand s c)
      ∧ FramedRun s (GxEPD2_EPD._writeData s d)
      ∧ FramedRun s (GxEPD2_EPD._writeData_n s data n fuel)
      ∧ FramedRun s (GxEPD2_EPD._writeDataPGM s data n fill fuel)
      ∧ FramedRun s (GxEPD2_EPD._writeDataPGM_sCS s data m fill fuel)
      ∧ FramedRun s (GxEPD2_EPD._writeCommandData s p datalen fuel)
      ∧ FramedRun s (GxEPD2_EPD._writeCommandDataPGM s p datalen fuel)
      ∧ FramedRun s (streamed s bytes) := by
  obtain ⟨hf1, hf2, hf3, hf4⟩ := hf
  refine ⟨?_, framed_writeCommand s c, framed_writeData s d,
    framed_writeData_n s data n fuel hn hf1, framed_writeDataPGM s data n fill fuel hn hf1 hf4,
    framed_writeDataPGM_sCS s data m fill fuel hm hf2 hf4,
    framed_writeCommandData s p datalen fuel hd hf3,
    framed_writeCommandData s p datalen fuel hd hf3, framed_streamed s bytes⟩
  rw [streamed_run, writeData_n_run s data n fuel hn hf1, List.map_map]
  rfl

theorem streaming_equals_buffered_witness :
    (3 < 65536 ∧ 2 ≤ 255 ∧ 3 < 256 ∧ (3 < 4 ∧ 2 < 4 ∧ 3 < 4 ∧ (2 : Int).toNat < 4))
      ∧ streamed sample [0, 1, 2] = GxEPD2_EPD._writeData_n sample sampleData 3 4
      ∧ FramedRun sample (GxEPD2_EPD._writeDataPGM_sCS sample sampleData 2 2 4) :=
  ⟨by decide,
    (streaming_equals_buffered sample sampleData sampleData 0 0 [] 3 2 3 2 4 (by decide)
      (by decide) (by decide) (by decide)).1,
    (streaming_equals_buffered sample sampleData sampleData 0 0 [] 3 2 3 2 4 (by decide)
      (by decide) (by decide) (by decide)).2.2.2.2.2.1⟩

end GxEPD2
